import Mathlib

/-!
Shallow embedding of the Synchronization & Temporal-Trigger Engine of the
personal-utility backend (Node/Express + PostgreSQL).

Conventions of the embedding:
* Timestamps are `Int`, measured in minutes (the scanner's SQL
  `INTERVAL '1 minute'` is `1`).  PostgreSQL calendar intervals are modelled
  with fixed lengths (day = 1440, week = 10080, month = 30 days,
  year = 365 days); the claims depend only on every pattern interval being
  larger than the one-minute scan window.
* A nullable SQL column is an `Option`; an SQL comparison `col > x` on a NULL
  column is `false`, exactly as in PostgreSQL.
* A table is a `List` of rows together with the next SERIAL value.
  `UPDATE ... WHERE id = $1 AND user_id = $2` is a `List.map` guarded on those
  columns; `SELECT ... WHERE id = $1 AND user_id = $2` is `List.find?`.
* Every `UPDATE` stamps `updatedAt` with the current time: the schema installs
  a `BEFORE UPDATE` trigger setting `updated_at = CURRENT_TIMESTAMP` on the
  todos, expenses and events tables.
-/

namespace SyncEngine

/-- `recurrence_pattern` CHECK constraint values (database/schema.sql). -/
inductive RecurrencePattern where
  | daily
  | weekly
  | monthly
  | yearly
deriving DecidableEq, Repr

/-- Interval added by the scanner's recurring-event advance
(`src/unnamed/part_002`, the `switch (e.recurrence_pattern)` block), in
minutes.  A PostgreSQL calendar month/year is modelled as 30/365 days. -/
def patternInterval : RecurrencePattern → Int
  | .daily => 1440
  | .weekly => 10080
  | .monthly => 43200
  | .yearly => 525600

/-- A row of the `todos` table (the columns read or written by the embedded
routes and the scanner). -/
structure Todo where
  id : Nat
  userId : Nat
  title : String
  description : String
  isCompleted : Bool
  categoryId : Option Nat
  priority : String
  tags : List String
  dueDate : Option Int
  reminderTime : Option Int
  isDeleted : Bool
  deletedAt : Option Int
  lastSyncedAt : Option Int
  clientId : Option String
  version : Int
  updatedAt : Int
deriving DecidableEq, Repr

/-- A row of the `expenses` table. `amount` (DECIMAL(12,2)) is modelled in
cents. -/
structure Expense where
  id : Nat
  userId : Nat
  amount : Int
  kind : String
  categoryId : Option Nat
  description : String
  date : Int
  paymentMethod : Option String
  isDeleted : Bool
  deletedAt : Option Int
  lastSyncedAt : Option Int
  clientId : Option String
  version : Int
  updatedAt : Int
deriving DecidableEq, Repr

/-- A row of the `events` table. -/
structure Event where
  id : Nat
  userId : Nat
  title : String
  description : String
  eventDate : Int
  eventType : Option String
  color : String
  icon : String
  isRecurring : Bool
  recurrencePattern : Option RecurrencePattern
  notificationEnabled : Bool
  notificationTimes : List Int
  imagePath : Option String
  createdAt : Int
  isDeleted : Bool
  deletedAt : Option Int
  lastSyncedAt : Option Int
  clientId : Option String
  version : Int
  updatedAt : Int
deriving DecidableEq, Repr

/-! ## The temporal-trigger scanner (src/unnamed/part_002, lines 84-192) -/

/-- Kind of a socket.io notification emitted by a scanner tick. -/
inductive NotifKind where
  | todoReminder
  | todoDeadline
  | eventDue
deriving DecidableEq, Repr

/-- A notification payload published over the broadcast channel. -/
structure Notification where
  kind : NotifKind
  id : Nat
  time : Int
deriving DecidableEq, Repr

/-- Todo-reminder due-set predicate: `reminder_time IS NOT NULL AND
reminder_time <= NOW() AND reminder_time > NOW() - INTERVAL '1 minute' AND
is_completed = false AND is_deleted = false`. -/
def todoReminderDue (now : Int) (t : Todo) : Bool :=
  match t.reminderTime with
  | none => false
  | some rt =>
      decide (rt ≤ now) && decide (now - 1 < rt) && !t.isCompleted && !t.isDeleted

/-- Todo-deadline due-set predicate: same window on `due_date`. -/
def todoDeadlineDue (now : Int) (t : Todo) : Bool :=
  match t.dueDate with
  | none => false
  | some d =>
      decide (d ≤ now) && decide (now - 1 < d) && !t.isCompleted && !t.isDeleted

/-- Event due-set predicate: `event_date <= NOW() AND
event_date > NOW() - INTERVAL '1 minute' AND is_deleted = false`. -/
def eventDueNow (now : Int) (e : Event) : Bool :=
  decide (e.eventDate ≤ now) && decide (now - 1 < e.eventDate) && !e.isDeleted

/-- One recurring-event advance statement:
`UPDATE events SET event_date = event_date + <interval>, updated_at = NOW()
WHERE id = $1`, executed for a selected row `e` when `e.is_recurring` holds
and its pattern is one of the four `switch` cases.  The addition reads the
event's current stored `event_date`. -/
def advanceStep (now : Int) (cur : List Event) (e : Event) : List Event :=
  if e.isRecurring then
    match e.recurrencePattern with
    | some p =>
        cur.map fun r =>
          if r.id = e.id then
            { r with eventDate := r.eventDate + patternInterval p, updatedAt := now }
          else r
    | none => cur
  else cur

/-- The sequence of advance statements the tick issues, one per selected due
event, in row order. -/
def scanAdvance (now : Int) (evs : List Event) (due : List Event) : List Event :=
  due.foldl (advanceStep now) evs

/-- Result of one scanner tick: the events table afterwards and the emitted
notifications. -/
structure ScanResult where
  events : List Event
  notifications : List Notification
deriving Repr

/-- `scanReminders` (src/unnamed/part_002): query the three due-sets, emit
one notification per row (`todo_reminder`, then `todo_deadline`, then
`event_due`), and advance each due recurring event. The todos table is not
written by the tick. -/
def scanReminders (now : Int) (todos : List Todo) (events : List Event) : ScanResult :=
  let reminders := todos.filter (todoReminderDue now)
  let deadlines := todos.filter (todoDeadlineDue now)
  let due := events.filter (eventDueNow now)
  { events := scanAdvance now events due
    notifications :=
      (reminders.map fun t => ⟨.todoReminder, t.id, t.reminderTime.getD 0⟩)
        ++ (deadlines.map fun t => ⟨.todoDeadline, t.id, t.dueDate.getD 0⟩)
        ++ (due.map fun e => ⟨.eventDue, e.id, e.eventDate⟩) }

/-- The `scanReminders` variant of `src/server.js` (lines 77-122): only two
queries (todo reminders and events), both over the upcoming window
`col >= NOW() AND col < NOW() + INTERVAL '1 minute'`, and no recurring-event
advance. -/
def scanRemindersFuture (now : Int) (todos : List Todo) (events : List Event) :
    List Notification :=
  let reminders := todos.filter fun t =>
    match t.reminderTime with
    | none => false
    | some rt =>
        decide (now ≤ rt) && decide (rt < now + 1) && !t.isCompleted && !t.isDeleted
  let due := events.filter fun e =>
    decide (now ≤ e.eventDate) && decide (e.eventDate < now + 1) && !e.isDeleted
  (reminders.map fun t => ⟨.todoReminder, t.id, t.reminderTime.getD 0⟩)
    ++ (due.map fun e => ⟨.eventDue, e.id, e.eventDate⟩)

/-! ## Sync coordinator state and request payloads -/

/-- SQL `col > $watermark` on a nullable timestamp column: a NULL column never
compares greater. -/
def sqlNewerThan (col : Option Int) (w : Int) : Bool :=
  match col with
  | none => false
  | some t => decide (w < t)

/-- `'1970-01-01'`, the fallback watermark substituted for a missing
`lastSyncTime` (`lastSyncTime || '1970-01-01'`). -/
def epoch : Int := 0

/-- The `todos` table with its SERIAL counter. -/
structure TodosState where
  rows : List Todo
  nextId : Nat
deriving DecidableEq, Repr

/-- The `expenses` table with its SERIAL counter. -/
structure ExpensesState where
  rows : List Expense
  nextId : Nat
deriving DecidableEq, Repr

/-- The `events` table with its SERIAL counter. -/
structure EventsState where
  rows : List Event
  nextId : Nat
deriving DecidableEq, Repr

/-- One element of the `todos` array of a `POST /api/todos/sync` body
(src/unnamed/part_007, second router). -/
structure TodoSyncItem where
  id : Option Nat
  title : String
  description : String
  isCompleted : Bool
  categoryId : Option Nat
  priority : String
  tags : List String
  dueDate : Option Int
  reminderTime : Option Int
  version : Int
  clientId : Option String
deriving DecidableEq, Repr

/-- One element of the `expenses` array of a `POST /api/expenses/sync` body
(src/routes/expenses.js). -/
structure ExpenseSyncItem where
  id : Option Nat
  amount : Int
  kind : String
  categoryId : Option Nat
  description : String
  date : Int
  paymentMethod : Option String
  clientId : Option String
deriving DecidableEq, Repr

/-- One element of the `events` array of a `POST /api/events/sync` body.
`updatedAt` is read only by the timestamp-based variant
(src/unnamed/part_004). -/
structure EventSyncItem where
  id : Option Nat
  title : String
  description : String
  eventDate : Int
  eventType : Option String
  color : String
  icon : String
  isRecurring : Bool
  recurrencePattern : Option RecurrencePattern
  notificationEnabled : Bool
  notificationTimes : List Int
  clientId : Option String
  updatedAt : Int
deriving DecidableEq, Repr

/-! ## POST /api/todos/sync (src/unnamed/part_007, lines 472-565) -/

/-- A `conflicts` entry of the todos sync.  The pushed `serverTodo` is
`existing.rows[0]` of `SELECT version FROM todos ...`, i.e. it carries only
the `version` column. -/
structure TodoConflict where
  clientTodo : TodoSyncItem
  serverVersion : Int
deriving DecidableEq, Repr

/-- The row produced by the todos-sync UPDATE: all payload columns from the
client, `version = $9` with `todo.version + 1` bound to it,
`last_synced_at = CURRENT_TIMESTAMP`; the schema trigger stamps
`updated_at`. -/
def todoUpdatedRow (now : Int) (item : TodoSyncItem) (r : Todo) : Todo :=
  { r with
    title := item.title
    description := item.description
    isCompleted := item.isCompleted
    categoryId := item.categoryId
    priority := item.priority
    tags := item.tags
    dueDate := item.dueDate
    reminderTime := item.reminderTime
    version := item.version + 1
    lastSyncedAt := some now
    updatedAt := now }

/-- The row produced by the todos-sync INSERT: payload columns plus
`client_id` and `last_synced_at = CURRENT_TIMESTAMP`; `version`, `is_deleted`
and `updated_at` take their column defaults. -/
def todoInsertRow (userId : Nat) (now : Int) (newId : Nat) (item : TodoSyncItem) : Todo :=
  { id := newId
    userId := userId
    title := item.title
    description := item.description
    isCompleted := item.isCompleted
    categoryId := item.categoryId
    priority := item.priority
    tags := item.tags
    dueDate := item.dueDate
    reminderTime := item.reminderTime
    isDeleted := false
    deletedAt := none
    lastSyncedAt := some now
    clientId := item.clientId
    version := 1
    updatedAt := now }

/-- Accumulator of the todos-sync mutation loop. -/
structure TodosSyncAcc where
  state : TodosState
  syncedTodos : List Todo
  conflicts : List TodoConflict
deriving DecidableEq, Repr

/-- One iteration of `for (const todo of todos)` in the todos sync: update
with version check, conflict on a newer server version, insert when the item
has no id, silently skipped when the id does not resolve. -/
def todosSyncStep (userId : Nat) (now : Int) (acc : TodosSyncAcc) (item : TodoSyncItem) :
    TodosSyncAcc :=
  match item.id with
  | some i =>
      match acc.state.rows.find? (fun r => r.id == i && r.userId == userId) with
      | some existing =>
          if existing.version > item.version then
            { acc with conflicts := acc.conflicts ++ [⟨item, existing.version⟩] }
          else
            { acc with
              state :=
                { acc.state with
                  rows := acc.state.rows.map fun r =>
                    if r.id = i ∧ r.userId = userId then todoUpdatedRow now item r else r }
              syncedTodos := acc.syncedTodos ++ [todoUpdatedRow now item existing] }
      | none => acc
  | none =>
      let newRow := todoInsertRow userId now acc.state.nextId item
      { acc with
        state := { rows := acc.state.rows ++ [newRow], nextId := acc.state.nextId + 1 }
        syncedTodos := acc.syncedTodos ++ [newRow] }

/-- Response (plus resulting table) of the todos sync. -/
structure TodosSyncResult where
  state : TodosState
  serverChanges : List Todo
  syncedTodos : List Todo
  conflicts : List TodoConflict
deriving DecidableEq, Repr

/-- `POST /api/todos/sync` (src/unnamed/part_007, second router):
`serverChanges` is selected from the pre-transaction table
(`last_synced_at > $watermark ORDER BY last_synced_at ASC`), after which the
client items are processed in order. -/
def todosSync (s : TodosState) (userId : Nat) (now : Int) (lastSyncTime : Option Int)
    (todos : List TodoSyncItem) : TodosSyncResult :=
  let w := lastSyncTime.getD epoch
  let serverChanges :=
    (s.rows.filter fun r => r.userId == userId && sqlNewerThan r.lastSyncedAt w).mergeSort
      fun a b => a.lastSyncedAt.getD 0 ≤ b.lastSyncedAt.getD 0
  let acc := todos.foldl (todosSyncStep userId now) ⟨s, [], []⟩
  { state := acc.state
    serverChanges := serverChanges
    syncedTodos := acc.syncedTodos
    conflicts := acc.conflicts }

/-! ## POST /api/expenses/sync (src/routes/expenses.js, lines 359-430) -/

/-- The row produced by the expenses-sync UPDATE: payload columns from the
client, `version = version + 1` (server-side increment),
`last_synced_at = CURRENT_TIMESTAMP`; the trigger stamps `updated_at`. -/
def expenseUpdatedRow (now : Int) (item : ExpenseSyncItem) (r : Expense) : Expense :=
  { r with
    amount := item.amount
    kind := item.kind
    categoryId := item.categoryId
    description := item.description
    date := item.date
    paymentMethod := item.paymentMethod
    version := r.version + 1
    lastSyncedAt := some now
    updatedAt := now }

/-- The row produced by the expenses-sync INSERT. -/
def expenseInsertRow (userId : Nat) (now : Int) (newId : Nat) (item : ExpenseSyncItem) :
    Expense :=
  { id := newId
    userId := userId
    amount := item.amount
    kind := item.kind
    categoryId := item.categoryId
    description := item.description
    date := item.date
    paymentMethod := item.paymentMethod
    isDeleted := false
    deletedAt := none
    lastSyncedAt := some now
    clientId := item.clientId
    version := 1
    updatedAt := now }

/-- Accumulator of the expenses-sync mutation loop. -/
structure ExpensesSyncAcc where
  state : ExpensesState
  syncedExpenses : List Expense
deriving DecidableEq, Repr

/-- One iteration of `for (const expense of expenses)`: an item with an id is
applied by an unconditional UPDATE (no version or timestamp comparison); the
updated row is pushed when the UPDATE affected a row.  An item without an id
is inserted. -/
def expensesSyncStep (userId : Nat) (now : Int) (acc : ExpensesSyncAcc)
    (item : ExpenseSyncItem) : ExpensesSyncAcc :=
  match item.id with
  | some i =>
      match acc.state.rows.find? (fun r => r.id == i && r.userId == userId) with
      | some existing =>
          { acc with
            state :=
              { acc.state with
                rows := acc.state.rows.map fun r =>
                  if r.id = i ∧ r.userId = userId then expenseUpdatedRow now item r else r }
            syncedExpenses := acc.syncedExpenses ++ [expenseUpdatedRow now item existing] }
      | none => acc
  | none =>
      let newRow := expenseInsertRow userId now acc.state.nextId item
      { acc with
        state := { rows := acc.state.rows ++ [newRow], nextId := acc.state.nextId + 1 }
        syncedExpenses := acc.syncedExpenses ++ [newRow] }

/-- Response (plus resulting table) of the expenses sync. -/
structure ExpensesSyncResult where
  state : ExpensesState
  serverChanges : List Expense
  syncedExpenses : List Expense
deriving DecidableEq, Repr

/-- `POST /api/expenses/sync` (src/routes/expenses.js): `serverChanges` from
the pre-transaction table (`last_synced_at > $watermark ORDER BY
last_synced_at ASC`), then the client items, with no conflict detection. -/
def expensesSync (s : ExpensesState) (userId : Nat) (now : Int) (lastSyncTime : Option Int)
    (expenses : List ExpenseSyncItem) : ExpensesSyncResult :=
  let w := lastSyncTime.getD epoch
  let serverChanges :=
    (s.rows.filter fun r => r.userId == userId && sqlNewerThan r.lastSyncedAt w).mergeSort
      fun a b => a.lastSyncedAt.getD 0 ≤ b.lastSyncedAt.getD 0
  let acc := expenses.foldl (expensesSyncStep userId now) ⟨s, []⟩
  { state := acc.state
    serverChanges := serverChanges
    syncedExpenses := acc.syncedExpenses }

/-! ## POST /api/events/sync (src/routes/events.js, lines 289-364) -/

/-- The row produced by the events-sync UPDATE of src/routes/events.js:
payload columns, `version = version + 1`, `last_synced_at =
CURRENT_TIMESTAMP`; the trigger stamps `updated_at`. -/
def eventUpdatedRow (now : Int) (item : EventSyncItem) (r : Event) : Event :=
  { r with
    title := item.title
    description := item.description
    eventDate := item.eventDate
    eventType := item.eventType
    color := item.color
    icon := item.icon
    isRecurring := item.isRecurring
    recurrencePattern := item.recurrencePattern
    notificationEnabled := item.notificationEnabled
    notificationTimes := item.notificationTimes
    version := r.version + 1
    lastSyncedAt := some now
    updatedAt := now }

/-- The row produced by the events-sync INSERT of src/routes/events.js
(`image_path` is not inserted and stays NULL). -/
def eventInsertRow (userId : Nat) (now : Int) (newId : Nat) (item : EventSyncItem) : Event :=
  { id := newId
    userId := userId
    title := item.title
    description := item.description
    eventDate := item.eventDate
    eventType := item.eventType
    color := item.color
    icon := item.icon
    isRecurring := item.isRecurring
    recurrencePattern := item.recurrencePattern
    notificationEnabled := item.notificationEnabled
    notificationTimes := item.notificationTimes
    imagePath := none
    createdAt := now
    isDeleted := false
    deletedAt := none
    lastSyncedAt := some now
    clientId := item.clientId
    version := 1
    updatedAt := now }

/-- Accumulator of the events-sync mutation loop (src/routes/events.js). -/
structure EventsSyncAcc where
  state : EventsState
  syncedEvents : List Event
deriving DecidableEq, Repr

/-- One iteration of the events-sync loop of src/routes/events.js:
unconditional UPDATE, no conflict detection, INSERT when the item has no
id. -/
def eventsSyncStep (userId : Nat) (now : Int) (acc : EventsSyncAcc) (item : EventSyncItem) :
    EventsSyncAcc :=
  match item.id with
  | some i =>
      match acc.state.rows.find? (fun r => r.id == i && r.userId == userId) with
      | some existing =>
          { acc with
            state :=
              { acc.state with
                rows := acc.state.rows.map fun r =>
                  if r.id = i ∧ r.userId = userId then eventUpdatedRow now item r else r }
            syncedEvents := acc.syncedEvents ++ [eventUpdatedRow now item existing] }
      | none => acc
  | none =>
      let newRow := eventInsertRow userId now acc.state.nextId item
      { acc with
        state := { rows := acc.state.rows ++ [newRow], nextId := acc.state.nextId + 1 }
        syncedEvents := acc.syncedEvents ++ [newRow] }

/-- Response (plus resulting table) of the events sync of
src/routes/events.js. -/
structure EventsSyncResult where
  state : EventsState
  serverChanges : List Event
  syncedEvents : List Event
deriving DecidableEq, Repr

/-- `POST /api/events/sync` (src/routes/events.js). -/
def eventsSync (s : EventsState) (userId : Nat) (now : Int) (lastSyncTime : Option Int)
    (events : List EventSyncItem) : EventsSyncResult :=
  let w := lastSyncTime.getD epoch
  let serverChanges :=
    (s.rows.filter fun r => r.userId == userId && sqlNewerThan r.lastSyncedAt w).mergeSort
      fun a b => a.lastSyncedAt.getD 0 ≤ b.lastSyncedAt.getD 0
  let acc := events.foldl (eventsSyncStep userId now) ⟨s, []⟩
  { state := acc.state
    serverChanges := serverChanges
    syncedEvents := acc.syncedEvents }

/-! ## POST /api/events/sync, timestamp variant (src/unnamed/part_004,
lines 433-523) -/

/-- A `conflicts` entry of the timestamp-based events sync: `serverEvent` is
`existing.rows[0]` of `SELECT updated_at FROM events ...`, i.e. only the
`updated_at` column. -/
structure EventTsConflict where
  clientEvent : EventSyncItem
  serverUpdatedAt : Int
deriving DecidableEq, Repr

/-- The row produced by the timestamp-variant UPDATE: it sets `title`,
`description`, `event_date`, `event_type`, `color`, `is_recurring`,
`notification_enabled` and `updated_at = CURRENT_TIMESTAMP` — and nothing
else: `version`, `last_synced_at`, `icon`, `recurrence_pattern` and
`notification_times` are left as stored. -/
def eventTsUpdatedRow (now : Int) (item : EventSyncItem) (r : Event) : Event :=
  { r with
    title := item.title
    description := item.description
    eventDate := item.eventDate
    eventType := item.eventType
    color := item.color
    isRecurring := item.isRecurring
    notificationEnabled := item.notificationEnabled
    updatedAt := now }

/-- The row produced by the timestamp-variant INSERT (only eight columns;
`icon`, `recurrence_pattern`, `notification_times`, `client_id` and
`last_synced_at` take their defaults). -/
def eventTsInsertRow (userId : Nat) (now : Int) (newId : Nat) (item : EventSyncItem) :
    Event :=
  { id := newId
    userId := userId
    title := item.title
    description := item.description
    eventDate := item.eventDate
    eventType := item.eventType
    color := item.color
    icon := "event"
    isRecurring := item.isRecurring
    recurrencePattern := none
    notificationEnabled := item.notificationEnabled
    notificationTimes := [1440, 60, 0]
    imagePath := none
    createdAt := now
    isDeleted := false
    deletedAt := none
    lastSyncedAt := none
    clientId := none
    version := 1
    updatedAt := now }

/-- Accumulator of the timestamp-variant mutation loop. -/
structure EventsTsSyncAcc where
  state : EventsState
  syncedEvents : List Event
  conflicts : List EventTsConflict
deriving DecidableEq, Repr

/-- One iteration of the timestamp-variant loop: last-write-wins on
`updated_at` (`new Date(existing.updated_at) > new Date(event.updated_at)`
yields a conflict), no version bump on the accepted update. -/
def eventsTsSyncStep (userId : Nat) (now : Int) (acc : EventsTsSyncAcc)
    (item : EventSyncItem) : EventsTsSyncAcc :=
  match item.id with
  | some i =>
      match acc.state.rows.find? (fun r => r.id == i && r.userId == userId) with
      | some existing =>
          if existing.updatedAt > item.updatedAt then
            { acc with conflicts := acc.conflicts ++ [⟨item, existing.updatedAt⟩] }
          else
            { acc with
              state :=
                { acc.state with
                  rows := acc.state.rows.map fun r =>
                    if r.id = i ∧ r.userId = userId then eventTsUpdatedRow now item r else r }
              syncedEvents := acc.syncedEvents ++ [eventTsUpdatedRow now item existing] }
      | none => acc
  | none =>
      let newRow := eventTsInsertRow userId now acc.state.nextId item
      { acc with
        state := { rows := acc.state.rows ++ [newRow], nextId := acc.state.nextId + 1 }
        syncedEvents := acc.syncedEvents ++ [newRow] }

/-- Response (plus resulting table) of the timestamp-based events sync. -/
structure EventsTsSyncResult where
  state : EventsState
  serverChanges : List Event
  syncedEvents : List Event
  conflicts : List EventTsConflict
deriving DecidableEq, Repr

/-- `POST /api/events/sync`, timestamp variant (src/unnamed/part_004):
`serverChanges` over `updated_at > $watermark ORDER BY updated_at ASC`. -/
def eventsSyncTs (s : EventsState) (userId : Nat) (now : Int) (lastSyncTime : Option Int)
    (events : List EventSyncItem) : EventsTsSyncResult :=
  let w := lastSyncTime.getD epoch
  let serverChanges :=
    (s.rows.filter fun r => r.userId == userId && decide (w < r.updatedAt)).mergeSort
      fun a b => a.updatedAt ≤ b.updatedAt
  let acc := events.foldl (eventsTsSyncStep userId now) ⟨s, [], []⟩
  { state := acc.state
    serverChanges := serverChanges
    syncedEvents := acc.syncedEvents
    conflicts := acc.conflicts }

/-- The pull-only todos sync of src/unnamed/part_008 (lines 113-148): it
selects `updated_at > $watermark` for the owner and applies no client
mutation at all. -/
def todosSyncPull (s : TodosState) (userId : Nat) (lastSyncTime : Option Int) : List Todo :=
  s.rows.filter fun r => r.userId == userId && decide (lastSyncTime.getD epoch < r.updatedAt)

/-! ## Transactional execution of a sync handler

Both cited sync handlers run their statements on one pooled client between
`BEGIN` and `COMMIT`, with `ROLLBACK` and a 500 response in the catch block.
`TxOutcome` reflects PostgreSQL's transaction semantics: a committed run
installs the new table, a rolled-back run leaves the pre-transaction table in
place.  A storage fault is injected as the index of the mutation whose
statement throws. -/
inductive TxOutcome (σ ρ : Type) where
  | committed : σ → ρ → TxOutcome σ ρ
  | rolledBack : Nat → TxOutcome σ ρ
deriving DecidableEq, Repr

/-- The table visible after the handler finishes: the transaction's table if
it committed, the pre-transaction table if it rolled back. -/
def TxOutcome.dbState {σ ρ : Type} (pre : σ) : TxOutcome σ ρ → σ
  | .committed s _ => s
  | .rolledBack _ => pre

/-- The expenses mutation loop with a fault injected before the statement of
the mutation `failAt` positions ahead. -/
def expensesSyncRun (userId : Nat) (now : Int) :
    Option Nat → List ExpenseSyncItem → ExpensesSyncAcc → Except Unit ExpensesSyncAcc
  | _, [], acc => .ok acc
  | some 0, _ :: _, _ => .error ()
  | some (n + 1), item :: rest, acc =>
      expensesSyncRun userId now (some n) rest (expensesSyncStep userId now acc item)
  | none, item :: rest, acc =>
      expensesSyncRun userId now none rest (expensesSyncStep userId now acc item)

/-- `POST /api/expenses/sync` run inside its transaction with an optional
injected storage fault at mutation index `failAt`. -/
def expensesSyncTx (s : ExpensesState) (userId : Nat) (now : Int)
    (lastSyncTime : Option Int) (expenses : List ExpenseSyncItem) (failAt : Option Nat) :
    TxOutcome ExpensesState ExpensesSyncResult :=
  match expensesSyncRun userId now failAt expenses ⟨s, []⟩ with
  | .ok acc =>
      .committed acc.state
        { state := acc.state
          serverChanges :=
            (s.rows.filter fun r =>
                r.userId == userId && sqlNewerThan r.lastSyncedAt (lastSyncTime.getD epoch)).mergeSort
              fun a b => a.lastSyncedAt.getD 0 ≤ b.lastSyncedAt.getD 0
          syncedExpenses := acc.syncedExpenses }
  | .error _ => .rolledBack 500

/-- The todos mutation loop with a fault injected before the statement of the
mutation `failAt` positions ahead. -/
def todosSyncRun (userId : Nat) (now : Int) :
    Option Nat → List TodoSyncItem → TodosSyncAcc → Except Unit TodosSyncAcc
  | _, [], acc => .ok acc
  | some 0, _ :: _, _ => .error ()
  | some (n + 1), item :: rest, acc =>
      todosSyncRun userId now (some n) rest (todosSyncStep userId now acc item)
  | none, item :: rest, acc =>
      todosSyncRun userId now none rest (todosSyncStep userId now acc item)

/-- `POST /api/todos/sync` (src/unnamed/part_007) run inside its transaction
with an optional injected storage fault. -/
def todosSyncTx (s : TodosState) (userId : Nat) (now : Int)
    (lastSyncTime : Option Int) (todos : List TodoSyncItem) (failAt : Option Nat) :
    TxOutcome TodosState TodosSyncResult :=
  match todosSyncRun userId now failAt todos ⟨s, [], []⟩ with
  | .ok acc =>
      .committed acc.state
        { state := acc.state
          serverChanges :=
            (s.rows.filter fun r =>
                r.userId == userId && sqlNewerThan r.lastSyncedAt (lastSyncTime.getD epoch)).mergeSort
              fun a b => a.lastSyncedAt.getD 0 ≤ b.lastSyncedAt.getD 0
          syncedTodos := acc.syncedTodos
          conflicts := acc.conflicts }
  | .error _ => .rolledBack 500

/-! ## Spec-side comparison definitions

These two definitions follow the specification's words, for refinement
comparison against the code-derived definitions above; they are used only in
counterexamples. -/

/-- The scan window asserted by the specification: the just-elapsed half-open
window `[now - interval, now)` with `interval = 1` minute. -/
def claimScanWindow (now t : Int) : Prop := now - 1 ≤ t ∧ t < now

/-- The `serverChanges` set asserted by the specification for the expenses
sync: the owner's records changed strictly after the watermark, excluding
the records the call's client mutations account for. -/
def claimServerChangesExpenses (s : ExpensesState) (userId : Nat) (w : Option Int)
    (items : List ExpenseSyncItem) : List Expense :=
  s.rows.filter fun r =>
    r.userId == userId && sqlNewerThan r.lastSyncedAt (w.getD epoch)
      && !(items.any fun item => item.id == some r.id)

/-! ## Proof infrastructure -/

/-- A `foldl` preserves any invariant its step preserves. -/
theorem foldl_invariant {α β : Type} (P : β → Prop) (f : β → α → β)
    (hf : ∀ b a, P b → P (f b a)) :
    ∀ (l : List α) (b : β), P b → P (l.foldl f b)
  | [], _, hb => hb
  | a :: l, b, hb => foldl_invariant P f hf l (f b a) (hf b a hb)

/-- Effect of one advance statement on one stored row. -/
def advanceRowStep (now : Int) (d : Event) (cur : Event) : Event :=
  if d.isRecurring then
    match d.recurrencePattern with
    | some p =>
        if cur.id = d.id then
          { cur with eventDate := cur.eventDate + patternInterval p, updatedAt := now }
        else cur
    | none => cur
  else cur

/-- Effect of the whole advance loop on one stored row. -/
def advanceRow (now : Int) (due : List Event) (r : Event) : Event :=
  due.foldl (fun cur d => advanceRowStep now d cur) r

theorem advanceRowStep_id (now : Int) (d cur : Event) :
    (advanceRowStep now d cur).id = cur.id := by
  unfold advanceRowStep
  cases d.isRecurring
  · rfl
  · cases d.recurrencePattern with
    | none => rfl
    | some p => by_cases h : cur.id = d.id <;> simp [h]

theorem advanceRow_id (now : Int) (due : List Event) (r : Event) :
    (advanceRow now due r).id = r.id := by
  induction due generalizing r with
  | nil => rfl
  | cons d rest ih =>
      show (advanceRow now rest (advanceRowStep now d r)).id = r.id
      rw [ih, advanceRowStep_id]

theorem advanceRowStep_of_ne (now : Int) {d cur : Event} (h : cur.id ≠ d.id) :
    advanceRowStep now d cur = cur := by
  unfold advanceRowStep
  cases d.isRecurring
  · rfl
  · cases d.recurrencePattern with
    | none => rfl
    | some p => simp [h]

theorem advanceStep_eq_map (now : Int) (cur : List Event) (d : Event) :
    advanceStep now cur d = cur.map (advanceRowStep now d) := by
  unfold advanceStep advanceRowStep
  cases d.isRecurring
  · simp
  · cases d.recurrencePattern with
    | none => simp
    | some p => simp

theorem scanAdvance_eq_map (now : Int) (evs due : List Event) :
    scanAdvance now evs due = evs.map (advanceRow now due) := by
  induction due generalizing evs with
  | nil =>
      have h : advanceRow now [] = fun r => r := funext fun _ => rfl
      simp [scanAdvance, h]
  | cons d rest ih =>
      show scanAdvance now (advanceStep now evs d) rest = _
      rw [ih, advanceStep_eq_map, List.map_map]
      rfl

/-- A row is untouched by the advance loop when every selected row sharing
its id is the row itself and the row is either non-recurring, pattern-less,
or not selected. -/
theorem advanceRow_eq_self (now : Int) {due : List Event} {r : Event}
    (hall : ∀ d ∈ due, d.id = r.id → d = r)
    (hskip : r.isRecurring = false ∨ r.recurrencePattern = none ∨ r ∉ due) :
    advanceRow now due r = r := by
  induction due with
  | nil => rfl
  | cons d rest ih =>
      have hstep : advanceRowStep now d r = r := by
        by_cases hid : r.id = d.id
        · have hd : d = r := hall d (List.mem_cons_self d rest) hid.symm
          rcases hskip with h | h | h
          · rw [hd]
            cases hb : r.isRecurring
            · simp [advanceRowStep, hb]
            · rw [hb] at h; cases h
          · rw [hd]
            cases hb : r.isRecurring <;> simp [advanceRowStep, hb, h]
          · exact absurd (List.mem_cons.mpr (Or.inl hd.symm)) h
        · exact advanceRowStep_of_ne now hid
      show advanceRow now rest (advanceRowStep now d r) = r
      rw [hstep]
      refine ih (fun d' hd' => hall d' (List.mem_cons_of_mem d hd')) ?_
      rcases hskip with h | h | h
      · exact Or.inl h
      · exact Or.inr (Or.inl h)
      · exact Or.inr (Or.inr fun hm => h (List.mem_cons_of_mem d hm))

/-- The advance loop rewrites a selected recurring row by its pattern
interval and the scan timestamp, and nothing else. -/
theorem advanceRow_of_due (now : Int) {due : List Event}
    (hnd : (due.map Event.id).Nodup) {e : Event} (he : e ∈ due)
    (hr : e.isRecurring = true) {p : RecurrencePattern} (hp : e.recurrencePattern = some p) :
    advanceRow now due e =
      { e with eventDate := e.eventDate + patternInterval p, updatedAt := now } := by
  induction due with
  | nil => cases he
  | cons d rest ih =>
      rw [List.map_cons, List.nodup_cons] at hnd
      rcases List.mem_cons.mp he with rfl | hmem
      · have hstep : advanceRowStep now e e =
            { e with eventDate := e.eventDate + patternInterval p, updatedAt := now } := by
          unfold advanceRowStep
          rw [hr, hp]
          simp
        show advanceRow now rest (advanceRowStep now e e) = _
        rw [hstep]
        refine advanceRow_eq_self now ?_ (Or.inr (Or.inr ?_))
        · intro d' hd' hid
          refine absurd ?_ hnd.1
          have hmm := List.mem_map_of_mem Event.id hd'
          rw [hid] at hmm
          simpa using hmm
        · intro hm
          refine hnd.1 ?_
          simpa using List.mem_map_of_mem Event.id hm
      · have hne : e.id ≠ d.id := by
          intro h
          exact hnd.1 (h ▸ List.mem_map_of_mem Event.id hmem)
        show advanceRow now rest (advanceRowStep now d e) = _
        rw [advanceRowStep_of_ne now hne]
        exact ih hnd.2 hmem

/-- Every recurrence interval is at least one day, hence larger than the
one-minute scan window. -/
theorem patternInterval_ge (p : RecurrencePattern) : 1440 ≤ patternInterval p := by
  cases p <;> simp [patternInterval]

theorem countP_id_eq_one {l : List Event} (hnd : (l.map Event.id).Nodup) {e : Event}
    (he : e ∈ l) : (l.countP fun r => r.id == e.id) = 1 := by
  have h1 : (l.map Event.id).countP (fun i => i == e.id) = l.countP fun r => r.id == e.id :=
    List.countP_map _ _ _
  rw [← h1, ← List.count_eq_countP]
  exact List.count_eq_one_of_mem hnd (List.mem_map_of_mem Event.id he)

theorem find?_id_of_nodup {l : List Event} (hnd : (l.map Event.id).Nodup) {e : Event}
    (he : e ∈ l) : l.find? (fun r => r.id == e.id) = some e := by
  induction l with
  | nil => cases he
  | cons a rest ih =>
      rcases List.mem_cons.mp he with rfl | hmem
      · exact List.find?_cons_of_pos _ (by simp)
      · rw [List.map_cons, List.nodup_cons] at hnd
        have hne : a.id ≠ e.id := fun h => hnd.1 (h ▸ List.mem_map_of_mem Event.id hmem)
        rw [List.find?_cons_of_neg _ (by simpa using hne)]
        exact ih hnd.2 hmem

theorem eq_of_mem_nodup_id {l : List Event} (hnd : (l.map Event.id).Nodup) {a b : Event}
    (ha : a ∈ l) (hb : b ∈ l) (h : a.id = b.id) : a = b :=
  List.inj_on_of_nodup_map hnd ha hb h

theorem todo_eq_of_mem_nodup_id {l : List Todo} (hnd : (l.map Todo.id).Nodup) {a b : Todo}
    (ha : a ∈ l) (hb : b ∈ l) (h : a.id = b.id) : a = b :=
  List.inj_on_of_nodup_map hnd ha hb h

/-- The `event_due` notifications of a tick with a given id are exactly the
selected due events with that id. -/
theorem scan_eventDue_countP (now : Int) (todos : List Todo) (events : List Event) (x : Nat) :
    ((scanReminders now todos events).notifications.countP
        fun n => n.kind == NotifKind.eventDue && n.id == x) =
      ((events.filter (eventDueNow now)).countP fun e => e.id == x) := by
  unfold scanReminders
  rw [List.countP_append, List.countP_append, List.countP_map, List.countP_map,
    List.countP_map]
  have h1 : ((todos.filter (todoReminderDue now)).countP
      ((fun n : Notification => n.kind == NotifKind.eventDue && n.id == x) ∘
        fun t => ⟨.todoReminder, t.id, t.reminderTime.getD 0⟩)) = 0 :=
    List.countP_eq_zero.mpr (by intro a _; simp [Function.comp])
  have h2 : ((todos.filter (todoDeadlineDue now)).countP
      ((fun n : Notification => n.kind == NotifKind.eventDue && n.id == x) ∘
        fun t => ⟨.todoDeadline, t.id, t.dueDate.getD 0⟩)) = 0 :=
    List.countP_eq_zero.mpr (by intro a _; simp [Function.comp])
  rw [h1, h2]
  have h3 : ((fun n : Notification => n.kind == NotifKind.eventDue && n.id == x) ∘
      fun e : Event => (⟨.eventDue, e.id, e.eventDate⟩ : Notification)) =
        fun e : Event => e.id == x := by
    funext a
    simp [Function.comp]
  rw [h3]
  omega

/-- After a tick, the row of a selected due recurring event is the old row
with its date advanced by the pattern interval and `updated_at` stamped. -/
theorem scan_find?_advanced (now : Int) (todos : List Todo) {events : List Event}
    (hnd : (events.map Event.id).Nodup) {e : Event} (he : e ∈ events)
    (hr : e.isRecurring = true) {p : RecurrencePattern} (hp : e.recurrencePattern = some p)
    (hdue : eventDueNow now e = true) :
    (scanReminders now todos events).events.find? (fun r => r.id == e.id) =
      some { e with eventDate := e.eventDate + patternInterval p, updatedAt := now } := by
  have hdnd : ((events.filter (eventDueNow now)).map Event.id).Nodup :=
    ((List.filter_sublist events).map Event.id).nodup hnd
  have hedue : e ∈ events.filter (eventDueNow now) := List.mem_filter.mpr ⟨he, hdue⟩
  have hev : (scanReminders now todos events).events =
      events.map (advanceRow now (events.filter (eventDueNow now))) := by
    unfold scanReminders
    exact scanAdvance_eq_map now events _
  rw [hev, List.find?_map]
  have hpred : ((fun r : Event => r.id == e.id) ∘
      advanceRow now (events.filter (eventDueNow now))) = fun r : Event => r.id == e.id := by
    funext r
    simp [Function.comp, advanceRow_id]
  rw [hpred, find?_id_of_nodup hnd he]
  show some (advanceRow now (events.filter (eventDueNow now)) e) = _
  rw [advanceRow_of_due now hdnd hedue hr hp]

/-- Claim C2: a recurring calendar event with a recognized recurrence pattern
that is due inside a tick's window triggers exactly one `event_due`
notification in that tick; the tick rewrites its `event_date` forward by the
pattern interval; and a second tick over the same window emits no further
`event_due` notification for that event. -/
theorem claim_C2_recurring_due_once
    (now : Int) (todos : List Todo) (events : List Event)
    (hnd : (events.map Event.id).Nodup) (e : Event) (he : e ∈ events)
    (hr : e.isRecurring = true) (p : RecurrencePattern) (hp : e.recurrencePattern = some p)
    (hdue : eventDueNow now e = true) :
    ((scanReminders now todos events).notifications.countP
        fun n => n.kind == NotifKind.eventDue && n.id == e.id) = 1
  ∧ ((scanReminders now todos events).events.find? (fun r => r.id == e.id) =
      some { e with eventDate := e.eventDate + patternInterval p, updatedAt := now })
  ∧ ((scanReminders now todos
        (scanReminders now todos events).events).notifications.countP
        fun n => n.kind == NotifKind.eventDue && n.id == e.id) = 0 := by
  have hdnd : ((events.filter (eventDueNow now)).map Event.id).Nodup :=
    ((List.filter_sublist events).map Event.id).nodup hnd
  have hedue : e ∈ events.filter (eventDueNow now) := List.mem_filter.mpr ⟨he, hdue⟩
  have hwin : e.eventDate ≤ now ∧ now - 1 < e.eventDate := by
    have := hdue
    unfold eventDueNow at this
    simp only [Bool.and_eq_true, decide_eq_true_eq] at this
    exact ⟨this.1.1, this.1.2⟩
  refine ⟨?_, ?_, ?_⟩
  · rw [scan_eventDue_countP]
    exact countP_id_eq_one hdnd hedue
  · exact scan_find?_advanced now todos hnd he hr hp hdue
  · rw [scan_eventDue_countP]
    refine List.countP_eq_zero.mpr ?_
    intro a ha hpa
    have haid : a.id = e.id := by simpa using hpa
    rw [List.mem_filter] at ha
    have hamem : a ∈ (scanReminders now todos events).events := ha.1
    have hev : (scanReminders now todos events).events =
        events.map (advanceRow now (events.filter (eventDueNow now))) := by
      unfold scanReminders
      exact scanAdvance_eq_map now events _
    rw [hev, List.mem_map] at hamem
    obtain ⟨r0, hr0, hr0a⟩ := hamem
    have hr0id : r0.id = e.id := by
      rw [← haid, ← hr0a, advanceRow_id]
    have hr0e : r0 = e := eq_of_mem_nodup_id hnd hr0 he hr0id
    subst hr0e
    rw [advanceRow_of_due now hdnd hedue hr hp] at hr0a
    have hadue := ha.2
    rw [← hr0a] at hadue
    unfold eventDueNow at hadue
    simp only [Bool.and_eq_true, decide_eq_true_eq] at hadue
    have hle : r0.eventDate + patternInterval p ≤ now := hadue.1.1
    have hge : now ≤ r0.eventDate := by omega
    have := patternInterval_ge p
    omega

/-- Witness for claim C2 at a concrete input: a weekly event due exactly at
the tick instant. -/
def c2Event : Event :=
  { id := 1, userId := 1, title := "w", description := "", eventDate := 100
    eventType := none, color := "#e74c3c", icon := "event", isRecurring := true
    recurrencePattern := some .weekly, notificationEnabled := true
    notificationTimes := [1440, 60, 0], imagePath := none, createdAt := 0
    isDeleted := false, deletedAt := none, lastSyncedAt := none, clientId := none
    version := 1, updatedAt := 0 }

/-- The record claim C2's witness expects after the advance: the weekly
interval added to the due date and the scan time stamped. -/
def c2Advanced : Event := { c2Event with eventDate := 10180, updatedAt := 100 }

theorem claim_C2_witness :
    ([c2Event].map Event.id).Nodup ∧ c2Event ∈ [c2Event] ∧
      c2Event.isRecurring = true ∧ c2Event.recurrencePattern = some .weekly ∧
      eventDueNow 100 c2Event = true ∧
      (((scanReminders 100 [] [c2Event]).notifications.countP
          fun n => n.kind == NotifKind.eventDue && n.id == c2Event.id) = 1
        ∧ ((scanReminders 100 [] [c2Event]).events.find? (fun r => r.id == c2Event.id) =
            some c2Advanced)
        ∧ ((scanReminders 100 []
              (scanReminders 100 [] [c2Event]).events).notifications.countP
              fun n => n.kind == NotifKind.eventDue && n.id == c2Event.id) = 0) :=
  ⟨by decide, by decide, by decide, by decide, by decide,
    claim_C2_recurring_due_once 100 [] [c2Event] (by decide) c2Event (by decide)
      (by decide) .weekly (by decide) (by decide)⟩

/-- A todo selected by the reminder due-set is neither completed nor
deleted. -/
theorem todoReminderDue_flags {now : Int} {t : Todo} (h : todoReminderDue now t = true) :
    t.isCompleted = false ∧ t.isDeleted = false := by
  unfold todoReminderDue at h
  cases hrt : t.reminderTime with
  | none => rw [hrt] at h; cases h
  | some rt =>
      rw [hrt] at h
      simp only [Bool.and_eq_true, Bool.not_eq_true'] at h
      exact ⟨h.1.2, h.2⟩

/-- A todo selected by the deadline due-set is neither completed nor
deleted. -/
theorem todoDeadlineDue_flags {now : Int} {t : Todo} (h : todoDeadlineDue now t = true) :
    t.isCompleted = false ∧ t.isDeleted = false := by
  unfold todoDeadlineDue at h
  cases hd : t.dueDate with
  | none => rw [hd] at h; cases h
  | some d =>
      rw [hd] at h
      simp only [Bool.and_eq_true, Bool.not_eq_true'] at h
      exact ⟨h.1.2, h.2⟩

/-- Claim C7 (amended): when the scanner advances a due recurring event, the
event's date becomes the old date plus the pattern interval, `updated_at` is
restamped to the scan time, and every other field is unchanged; rows that are
not due recurring events with a pattern are left entirely untouched. -/
theorem claim_C7_advance_frame_amended
    (now : Int) (todos : List Todo) (events : List Event)
    (hnd : (events.map Event.id).Nodup) (e : Event) (he : e ∈ events)
    (hr : e.isRecurring = true) (p : RecurrencePattern) (hp : e.recurrencePattern = some p)
    (hdue : eventDueNow now e = true) :
    ((scanReminders now todos events).events.find? (fun r => r.id == e.id) =
        some { e with eventDate := e.eventDate + patternInterval p, updatedAt := now })
  ∧ (∀ r ∈ events,
      (r.isRecurring = false ∨ r.recurrencePattern = none ∨ eventDueNow now r = false) →
        r ∈ (scanReminders now todos events).events) := by
  constructor
  · exact scan_find?_advanced now todos hnd he hr hp hdue
  · intro r hrm hskip
    have hev : (scanReminders now todos events).events =
        events.map (advanceRow now (events.filter (eventDueNow now))) := by
      unfold scanReminders
      exact scanAdvance_eq_map now events _
    have hall : ∀ d ∈ events.filter (eventDueNow now), d.id = r.id → d = r := fun d hd hid =>
      eq_of_mem_nodup_id hnd (List.mem_filter.mp hd).1 hrm hid
    have hfix : advanceRow now (events.filter (eventDueNow now)) r = r := by
      refine advanceRow_eq_self now hall ?_
      rcases hskip with h | h | h
      · exact Or.inl h
      · exact Or.inr (Or.inl h)
      · refine Or.inr (Or.inr fun hm => ?_)
        rw [(List.mem_filter.mp hm).2] at h
        cases h
    rw [hev]
    have := List.mem_map_of_mem (advanceRow now (events.filter (eventDueNow now))) hrm
    rwa [hfix] at this

/-- Concrete due weekly event whose `updated_at` differs from the scan
time. -/
def c7Event : Event :=
  { id := 1, userId := 1, title := "w", description := "", eventDate := 100
    eventType := none, color := "#e74c3c", icon := "event", isRecurring := true
    recurrencePattern := some .weekly, notificationEnabled := true
    notificationTimes := [1440, 60, 0], imagePath := none, createdAt := 0
    isDeleted := false, deletedAt := none, lastSyncedAt := none, clientId := none
    version := 1, updatedAt := 7 }

/-- Claim C7 as stated is false: the advance does not leave every field other
than `event_date` unchanged — the UPDATE also sets `updated_at = NOW()` (and
the schema trigger would stamp it regardless).  At the concrete input, the
stored row after the tick differs from the old row with only `event_date`
advanced. -/
theorem claim_C7_counterexample :
    (scanReminders 100 [] [c7Event]).events.find? (fun r => r.id == c7Event.id) ≠
      some { c7Event with eventDate := c7Event.eventDate + patternInterval .weekly } := by
  decide

/-- The row the amended claim C7 predicts at the witness input. -/
def c7Advanced : Event := { c7Event with eventDate := 10180, updatedAt := 100 }

theorem claim_C7_witness :
    (([c7Event].map Event.id).Nodup ∧ c7Event.isRecurring = true ∧
        c7Event.recurrencePattern = some .weekly ∧ eventDueNow 100 c7Event = true) ∧
      (((scanReminders 100 [] [c7Event]).events.find? (fun r => r.id == c7Event.id) =
          some c7Advanced)
        ∧ (∀ r ∈ [c7Event],
            (r.isRecurring = false ∨ r.recurrencePattern = none ∨
              eventDueNow 100 r = false) →
              r ∈ (scanReminders 100 [] [c7Event]).events)) :=
  ⟨⟨by decide, by decide, by decide, by decide⟩,
    claim_C7_advance_frame_amended 100 [] [c7Event] (by decide) c7Event (by decide)
      (by decide) .weekly (by decide) (by decide)⟩

/-- Claim C10: a tick never emits a `todo_reminder` or `todo_deadline`
notification for a completed or deleted todo, in either scanner variant. -/
theorem claim_C10_completed_or_deleted_suppressed
    (now : Int) (todos : List Todo) (events : List Event)
    (hnd : (todos.map Todo.id).Nodup) (t : Todo) (ht : t ∈ todos)
    (hcd : t.isCompleted = true ∨ t.isDeleted = true) :
    (∀ n ∈ (scanReminders now todos events).notifications,
        n.kind = NotifKind.todoReminder ∨ n.kind = NotifKind.todoDeadline → n.id ≠ t.id)
  ∧ (∀ n ∈ scanRemindersFuture now todos events,
        n.kind = NotifKind.todoReminder → n.id ≠ t.id) := by
  constructor
  · intro n hn hk hid
    unfold scanReminders at hn
    simp only [List.mem_append] at hn
    rcases hn with (hn | hn) | hn
    · rw [List.mem_map] at hn
      obtain ⟨t', ht', hmk⟩ := hn
      rw [List.mem_filter] at ht'
      have hflags := todoReminderDue_flags ht'.2
      have ht'id : t'.id = t.id := by rw [← hid, ← hmk]
      have : t' = t := todo_eq_of_mem_nodup_id hnd ht'.1 ht ht'id
      subst this
      rcases hcd with h | h
      · rw [hflags.1] at h; cases h
      · rw [hflags.2] at h; cases h
    · rw [List.mem_map] at hn
      obtain ⟨t', ht', hmk⟩ := hn
      rw [List.mem_filter] at ht'
      have hflags := todoDeadlineDue_flags ht'.2
      have ht'id : t'.id = t.id := by rw [← hid, ← hmk]
      have : t' = t := todo_eq_of_mem_nodup_id hnd ht'.1 ht ht'id
      subst this
      rcases hcd with h | h
      · rw [hflags.1] at h; cases h
      · rw [hflags.2] at h; cases h
    · rw [List.mem_map] at hn
      obtain ⟨e', _, hmk⟩ := hn
      rcases hk with h | h <;> rw [← hmk] at h <;> cases h
  · intro n hn hk hid
    unfold scanRemindersFuture at hn
    simp only [List.mem_append] at hn
    rcases hn with hn | hn
    · rw [List.mem_map] at hn
      obtain ⟨t', ht', hmk⟩ := hn
      rw [List.mem_filter] at ht'
      have hflags : t'.isCompleted = false ∧ t'.isDeleted = false := by
        have h := ht'.2
        cases hrt : t'.reminderTime with
        | none => rw [hrt] at h; cases h
        | some rt =>
            rw [hrt] at h
            simp only [Bool.and_eq_true, Bool.not_eq_true'] at h
            exact ⟨h.1.2, h.2⟩
      have ht'id : t'.id = t.id := by rw [← hid, ← hmk]
      have : t' = t := todo_eq_of_mem_nodup_id hnd ht'.1 ht ht'id
      subst this
      rcases hcd with h | h
      · rw [hflags.1] at h; cases h
      · rw [hflags.2] at h; cases h
    · rw [List.mem_map] at hn
      obtain ⟨e', _, hmk⟩ := hn
      rw [← hmk] at hk
      cases hk

/-- A completed todo with both a reminder and a deadline inside the window,
for the claim C10 witness. -/
def c10Todo : Todo :=
  { id := 1, userId := 1, title := "t", description := "", isCompleted := true
    categoryId := none, priority := "medium", tags := [], dueDate := some 100
    reminderTime := some 100, isDeleted := false, deletedAt := none
    lastSyncedAt := none, clientId := none, version := 1, updatedAt := 0 }

theorem claim_C10_witness :
    (([c10Todo].map Todo.id).Nodup ∧
        (c10Todo.isCompleted = true ∨ c10Todo.isDeleted = true)) ∧
      ((∀ n ∈ (scanReminders 100 [c10Todo] []).notifications,
          n.kind = NotifKind.todoReminder ∨ n.kind = NotifKind.todoDeadline →
            n.id ≠ c10Todo.id)
        ∧ (∀ n ∈ scanRemindersFuture 100 [c10Todo] [],
            n.kind = NotifKind.todoReminder → n.id ≠ c10Todo.id)) :=
  ⟨⟨by decide, by decide⟩,
    claim_C10_completed_or_deleted_suppressed 100 [c10Todo] [] (by decide) c10Todo
      (by decide) (by decide)⟩

/-- A `todo_reminder` notification for a given todo is emitted by a tick iff
the todo passes the reminder due-set query. -/
theorem scan_reminder_notif_iff (now : Int) {todos : List Todo} (events : List Event)
    (hnd : (todos.map Todo.id).Nodup) {t : Todo} (ht : t ∈ todos) :
    (∃ n ∈ (scanReminders now todos events).notifications,
        n.kind = NotifKind.todoReminder ∧ n.id = t.id) ↔ todoReminderDue now t = true := by
  constructor
  · rintro ⟨n, hn, hk, hid⟩
    unfold scanReminders at hn
    simp only [List.mem_append] at hn
    rcases hn with (hn | hn) | hn
    · rw [List.mem_map] at hn
      obtain ⟨t', ht', hmk⟩ := hn
      rw [List.mem_filter] at ht'
      have : t' = t := todo_eq_of_mem_nodup_id hnd ht'.1 ht (by rw [← hid, ← hmk])
      subst this
      exact ht'.2
    · rw [List.mem_map] at hn
      obtain ⟨t', _, hmk⟩ := hn
      rw [← hmk] at hk
      cases hk
    · rw [List.mem_map] at hn
      obtain ⟨e', _, hmk⟩ := hn
      rw [← hmk] at hk
      cases hk
  · intro hdue
    refine ⟨⟨.todoReminder, t.id, t.reminderTime.getD 0⟩, ?_, rfl, rfl⟩
    unfold scanReminders
    simp only [List.mem_append]
    exact Or.inl (Or.inl (List.mem_map_of_mem _ (List.mem_filter.mpr ⟨ht, hdue⟩)))

/-- A `todo_deadline` notification for a given todo is emitted by a tick iff
the todo passes the deadline due-set query. -/
theorem scan_deadline_notif_iff (now : Int) {todos : List Todo} (events : List Event)
    (hnd : (todos.map Todo.id).Nodup) {t : Todo} (ht : t ∈ todos) :
    (∃ n ∈ (scanReminders now todos events).notifications,
        n.kind = NotifKind.todoDeadline ∧ n.id = t.id) ↔ todoDeadlineDue now t = true := by
  constructor
  · rintro ⟨n, hn, hk, hid⟩
    unfold scanReminders at hn
    simp only [List.mem_append] at hn
    rcases hn with (hn | hn) | hn
    · rw [List.mem_map] at hn
      obtain ⟨t', _, hmk⟩ := hn
      rw [← hmk] at hk
      cases hk
    · rw [List.mem_map] at hn
      obtain ⟨t', ht', hmk⟩ := hn
      rw [List.mem_filter] at ht'
      have : t' = t := todo_eq_of_mem_nodup_id hnd ht'.1 ht (by rw [← hid, ← hmk])
      subst this
      exact ht'.2
    · rw [List.mem_map] at hn
      obtain ⟨e', _, hmk⟩ := hn
      rw [← hmk] at hk
      cases hk
  · intro hdue
    refine ⟨⟨.todoDeadline, t.id, t.dueDate.getD 0⟩, ?_, rfl, rfl⟩
    unfold scanReminders
    simp only [List.mem_append]
    exact Or.inl (Or.inr (List.mem_map_of_mem _ (List.mem_filter.mpr ⟨ht, hdue⟩)))

/-- An `event_due` notification for a given event is emitted by a tick iff
the event passes the event due-set query. -/
theorem scan_event_notif_iff (now : Int) (todos : List Todo) {events : List Event}
    (hnd : (events.map Event.id).Nodup) {e : Event} (he : e ∈ events) :
    (∃ n ∈ (scanReminders now todos events).notifications,
        n.kind = NotifKind.eventDue ∧ n.id = e.id) ↔ eventDueNow now e = true := by
  constructor
  · rintro ⟨n, hn, hk, hid⟩
    unfold scanReminders at hn
    simp only [List.mem_append] at hn
    rcases hn with (hn | hn) | hn
    · rw [List.mem_map] at hn
      obtain ⟨t', _, hmk⟩ := hn
      rw [← hmk] at hk
      cases hk
    · rw [List.mem_map] at hn
      obtain ⟨t', _, hmk⟩ := hn
      rw [← hmk] at hk
      cases hk
    · rw [List.mem_map] at hn
      obtain ⟨e', he', hmk⟩ := hn
      rw [List.mem_filter] at he'
      have : e' = e := eq_of_mem_nodup_id hnd he'.1 he (by rw [← hid, ← hmk])
      subst this
      exact he'.2
  · intro hdue
    refine ⟨⟨.eventDue, e.id, e.eventDate⟩, ?_, rfl, rfl⟩
    unfold scanReminders
    simp only [List.mem_append]
    exact Or.inr (List.mem_map_of_mem _ (List.mem_filter.mpr ⟨he, hdue⟩))

/-- The reminder due-set query, unfolded to the window it implements. -/
theorem todoReminderDue_iff_window {now rt : Int} {t : Todo}
    (hrt : t.reminderTime = some rt) (hc : t.isCompleted = false)
    (hd : t.isDeleted = false) :
    todoReminderDue now t = true ↔ now - 1 < rt ∧ rt ≤ now := by
  unfold todoReminderDue
  rw [hrt]
  simp only [Bool.and_eq_true, Bool.not_eq_true', decide_eq_true_eq, hc, hd]
  tauto

/-- The deadline due-set query, unfolded to the window it implements. -/
theorem todoDeadlineDue_iff_window {now d : Int} {t : Todo}
    (hdd : t.dueDate = some d) (hc : t.isCompleted = false)
    (hd : t.isDeleted = false) :
    todoDeadlineDue now t = true ↔ now - 1 < d ∧ d ≤ now := by
  unfold todoDeadlineDue
  rw [hdd]
  simp only [Bool.and_eq_true, Bool.not_eq_true', decide_eq_true_eq, hc, hd]
  tauto

/-- The event due-set query, unfolded to the window it implements. -/
theorem eventDueNow_iff_window {now : Int} {e : Event} (hd : e.isDeleted = false) :
    eventDueNow now e = true ↔ now - 1 < e.eventDate ∧ e.eventDate ≤ now := by
  unfold eventDueNow
  simp only [Bool.and_eq_true, Bool.not_eq_true', decide_eq_true_eq, hd]
  tauto

/-- Claim C6 (amended): the part_002 scanner's three due-set queries all scan
the half-open window `(now - interval, now]` — open at the lower end and
closed at `now`, not `[now - interval, now)` — and this window is still
non-overlapping and gap-free across consecutive ticks spaced one interval
apart. -/
theorem claim_C6_amended_window
    (now : Int) (todos : List Todo) (events : List Event)
    (hndt : (todos.map Todo.id).Nodup) (hnde : (events.map Event.id).Nodup)
    (t : Todo) (ht : t ∈ todos) (hc : t.isCompleted = false) (hd : t.isDeleted = false)
    (e : Event) (he : e ∈ events) (hed : e.isDeleted = false) :
    (∀ rt : Int, t.reminderTime = some rt →
      ((∃ n ∈ (scanReminders now todos events).notifications,
          n.kind = NotifKind.todoReminder ∧ n.id = t.id) ↔ now - 1 < rt ∧ rt ≤ now))
  ∧ (∀ d : Int, t.dueDate = some d →
      ((∃ n ∈ (scanReminders now todos events).notifications,
          n.kind = NotifKind.todoDeadline ∧ n.id = t.id) ↔ now - 1 < d ∧ d ≤ now))
  ∧ ((∃ n ∈ (scanReminders now todos events).notifications,
        n.kind = NotifKind.eventDue ∧ n.id = e.id) ↔
          now - 1 < e.eventDate ∧ e.eventDate ≤ now)
  ∧ (∀ u : Int, ¬(todoReminderDue now { t with reminderTime := some u } = true ∧
        todoReminderDue (now + 1) { t with reminderTime := some u } = true))
  ∧ (∀ u : Int, now - 1 < u → u ≤ now + 1 →
      todoReminderDue now { t with reminderTime := some u } = true ∨
        todoReminderDue (now + 1) { t with reminderTime := some u } = true) := by
  have hwin : ∀ m u : Int, todoReminderDue m { t with reminderTime := some u } = true ↔
      m - 1 < u ∧ u ≤ m := fun m u =>
    todoReminderDue_iff_window rfl hc hd
  refine ⟨?_, ?_, ?_, ?_, ?_⟩
  · intro rt hrt
    rw [scan_reminder_notif_iff now events hndt ht]
    exact todoReminderDue_iff_window hrt hc hd
  · intro d hdd
    rw [scan_deadline_notif_iff now events hndt ht]
    exact todoDeadlineDue_iff_window hdd hc hd
  · rw [scan_event_notif_iff now todos hnde he]
    exact eventDueNow_iff_window hed
  · intro u h
    rw [hwin now u, hwin (now + 1) u] at h
    omega
  · intro u h1 h2
    rw [hwin now u, hwin (now + 1) u]
    omega

/-- A todo whose reminder falls exactly on the lower boundary
`now - interval`: inside the claim's window, missed by the code. -/
def c6TodoA : Todo :=
  { id := 1, userId := 1, title := "a", description := "", isCompleted := false
    categoryId := none, priority := "medium", tags := [], dueDate := none
    reminderTime := some 99, isDeleted := false, deletedAt := none
    lastSyncedAt := none, clientId := none, version := 1, updatedAt := 0 }

/-- A todo whose reminder falls exactly at `now`: outside the claim's window,
selected by the code. -/
def c6TodoB : Todo :=
  { id := 1, userId := 1, title := "b", description := "", isCompleted := false
    categoryId := none, priority := "medium", tags := [], dueDate := none
    reminderTime := some 100, isDeleted := false, deletedAt := none
    lastSyncedAt := none, clientId := none, version := 1, updatedAt := 0 }

/-- Claim C6 as stated is false: the code's scan window is
`(now - interval, now]`, not `[now - interval, now)`.  With `now = 100` and
`interval = 1`: the instant `99 = now - interval` lies in the claimed window
yet the tick emits nothing for a reminder there, while the instant `100 = now`
lies outside the claimed window yet the tick emits a reminder for it. -/
theorem claim_C6_counterexample :
    claimScanWindow 100 99
  ∧ (scanReminders 100 [c6TodoA] []).notifications = []
  ∧ ¬claimScanWindow 100 100
  ∧ (scanReminders 100 [c6TodoB] []).notifications =
      [⟨NotifKind.todoReminder, 1, 100⟩] := by
  refine ⟨by constructor <;> decide, by decide, ?_, by decide⟩
  intro h
  exact absurd h.2 (by decide)

/-- An event used only to instantiate the events argument of the claim C6
witness. -/
def c6Event : Event :=
  { id := 2, userId := 1, title := "x", description := "", eventDate := 100
    eventType := none, color := "#e74c3c", icon := "event", isRecurring := false
    recurrencePattern := none, notificationEnabled := true
    notificationTimes := [1440, 60, 0], imagePath := none, createdAt := 0
    isDeleted := false, deletedAt := none, lastSyncedAt := none, clientId := none
    version := 1, updatedAt := 0 }

theorem claim_C6_witness :
    (([c6TodoB].map Todo.id).Nodup ∧ ([c6Event].map Event.id).Nodup ∧
        c6TodoB.isCompleted = false ∧ c6TodoB.isDeleted = false ∧
        c6Event.isDeleted = false) ∧
      ((∃ n ∈ (scanReminders 100 [c6TodoB] [c6Event]).notifications,
          n.kind = NotifKind.todoReminder ∧ n.id = c6TodoB.id) ↔
            (100 : Int) - 1 < 100 ∧ (100 : Int) ≤ 100) :=
  ⟨⟨by decide, by decide, by decide, by decide, by decide⟩,
    ((claim_C6_amended_window 100 [c6TodoB] [c6Event] (by decide) (by decide) c6TodoB
        (by decide) (by decide) (by decide) c6Event (by decide) (by decide)).1 100
      (by decide))⟩

/-! ## Projection lemmas for the sync operations -/

theorem expensesSync_serverChanges (s : ExpensesState) (u : Nat) (now : Int)
    (w : Option Int) (items : List ExpenseSyncItem) :
    (expensesSync s u now w items).serverChanges =
      (s.rows.filter fun r => r.userId == u && sqlNewerThan r.lastSyncedAt (w.getD epoch)).mergeSort
        (fun a b => a.lastSyncedAt.getD 0 ≤ b.lastSyncedAt.getD 0) := rfl

theorem expensesSync_state (s : ExpensesState) (u : Nat) (now : Int)
    (w : Option Int) (items : List ExpenseSyncItem) :
    (expensesSync s u now w items).state =
      (items.foldl (expensesSyncStep u now) ⟨s, []⟩).state := rfl

theorem expensesSync_synced (s : ExpensesState) (u : Nat) (now : Int)
    (w : Option Int) (items : List ExpenseSyncItem) :
    (expensesSync s u now w items).syncedExpenses =
      (items.foldl (expensesSyncStep u now) ⟨s, []⟩).syncedExpenses := rfl

theorem todosSync_serverChanges (s : TodosState) (u : Nat) (now : Int)
    (w : Option Int) (items : List TodoSyncItem) :
    (todosSync s u now w items).serverChanges =
      (s.rows.filter fun r => r.userId == u && sqlNewerThan r.lastSyncedAt (w.getD epoch)).mergeSort
        (fun a b => a.lastSyncedAt.getD 0 ≤ b.lastSyncedAt.getD 0) := rfl

theorem todosSync_state (s : TodosState) (u : Nat) (now : Int)
    (w : Option Int) (items : List TodoSyncItem) :
    (todosSync s u now w items).state =
      (items.foldl (todosSyncStep u now) ⟨s, [], []⟩).state := rfl

theorem todosSync_synced (s : TodosState) (u : Nat) (now : Int)
    (w : Option Int) (items : List TodoSyncItem) :
    (todosSync s u now w items).syncedTodos =
      (items.foldl (todosSyncStep u now) ⟨s, [], []⟩).syncedTodos := rfl

theorem eventsSync_serverChanges (s : EventsState) (u : Nat) (now : Int)
    (w : Option Int) (items : List EventSyncItem) :
    (eventsSync s u now w items).serverChanges =
      (s.rows.filter fun r => r.userId == u && sqlNewerThan r.lastSyncedAt (w.getD epoch)).mergeSort
        (fun a b => a.lastSyncedAt.getD 0 ≤ b.lastSyncedAt.getD 0) := rfl

theorem eventsSync_state (s : EventsState) (u : Nat) (now : Int)
    (w : Option Int) (items : List EventSyncItem) :
    (eventsSync s u now w items).state =
      (items.foldl (eventsSyncStep u now) ⟨s, []⟩).state := rfl

theorem eventsSync_synced (s : EventsState) (u : Nat) (now : Int)
    (w : Option Int) (items : List EventSyncItem) :
    (eventsSync s u now w items).syncedEvents =
      (items.foldl (eventsSyncStep u now) ⟨s, []⟩).syncedEvents := rfl

theorem eventsSyncTs_serverChanges (s : EventsState) (u : Nat) (now : Int)
    (w : Option Int) (items : List EventSyncItem) :
    (eventsSyncTs s u now w items).serverChanges =
      (s.rows.filter fun r => r.userId == u && decide (w.getD epoch < r.updatedAt)).mergeSort
        (fun a b => a.updatedAt ≤ b.updatedAt) := rfl

theorem eventsSyncTs_state (s : EventsState) (u : Nat) (now : Int)
    (w : Option Int) (items : List EventSyncItem) :
    (eventsSyncTs s u now w items).state =
      (items.foldl (eventsTsSyncStep u now) ⟨s, [], []⟩).state := rfl

theorem eventsSyncTs_synced (s : EventsState) (u : Nat) (now : Int)
    (w : Option Int) (items : List EventSyncItem) :
    (eventsSyncTs s u now w items).syncedEvents =
      (items.foldl (eventsTsSyncStep u now) ⟨s, [], []⟩).syncedEvents := rfl

/-! ## Claim C1 -/

/-- Claim C1 (amended): only the todos sync compares revisions.  A todos
mutation targeting an existing id with a `version` below the server's is not
applied — the table is unchanged — and is returned as a conflict entry whose
`serverTodo` carries exactly the server's current `version` (the row of
`SELECT version`), never an older one.  The expenses and events syncs have no
such check (see the counterexample). -/
theorem claim_C1_amended_stale_rejected
    (s : TodosState) (u : Nat) (now : Int) (w : Option Int) (item : TodoSyncItem)
    (i : Nat) (hid : item.id = some i) (existing : Todo)
    (hfind : s.rows.find? (fun r => r.id == i && r.userId == u) = some existing)
    (hstale : item.version < existing.version) :
    (todosSync s u now w [item]).conflicts = [⟨item, existing.version⟩]
  ∧ (todosSync s u now w [item]).state = s
  ∧ (todosSync s u now w [item]).syncedTodos = [] := by
  have hstep : todosSyncStep u now ⟨s, [], []⟩ item =
      ⟨s, [], [⟨item, existing.version⟩]⟩ := by
    unfold todosSyncStep
    rw [hid]
    show (match (⟨s, [], []⟩ : TodosSyncAcc).state.rows.find?
        (fun r => r.id == i && r.userId == u) with
      | some existing => _
      | none => _) = _
    rw [show (⟨s, [], []⟩ : TodosSyncAcc).state.rows = s.rows from rfl, hfind]
    simp [gt_iff_lt, hstale]
  have hfold : [item].foldl (todosSyncStep u now) ⟨s, [], []⟩ =
      ⟨s, [], [⟨item, existing.version⟩]⟩ := by
    rw [List.foldl_cons, List.foldl_nil, hstep]
  refine ⟨?_, ?_, ?_⟩
  · show ([item].foldl (todosSyncStep u now) ⟨s, [], []⟩).conflicts = _
    rw [hfold]
  · rw [todosSync_state, hfold]
  · rw [todosSync_synced, hfold]

/-- Server row for the claim C1 witness: version 5. -/
def c1Todo : Todo :=
  { id := 1, userId := 1, title := "t", description := "", isCompleted := false
    categoryId := none, priority := "medium", tags := [], dueDate := none
    reminderTime := none, isDeleted := false, deletedAt := none
    lastSyncedAt := some 5, clientId := some "k", version := 5, updatedAt := 5 }

/-- Client mutation for the claim C1 witness: believed version 3 < 5. -/
def c1TodoItem : TodoSyncItem :=
  { id := some 1, title := "t2", description := "", isCompleted := true
    categoryId := none, priority := "high", tags := [], dueDate := none
    reminderTime := none, version := 3, clientId := some "k" }

theorem claim_C1_witness :
    (c1TodoItem.id = some 1 ∧
        (⟨[c1Todo], 2⟩ : TodosState).rows.find?
            (fun r => r.id == 1 && r.userId == 1) = some c1Todo ∧
        c1TodoItem.version < c1Todo.version) ∧
      ((todosSync ⟨[c1Todo], 2⟩ 1 50 none [c1TodoItem]).conflicts =
          [⟨c1TodoItem, c1Todo.version⟩]
        ∧ (todosSync ⟨[c1Todo], 2⟩ 1 50 none [c1TodoItem]).state = ⟨[c1Todo], 2⟩
        ∧ (todosSync ⟨[c1Todo], 2⟩ 1 50 none [c1TodoItem]).syncedTodos = []) :=
  ⟨⟨by decide, by decide, by decide⟩,
    claim_C1_amended_stale_rejected ⟨[c1Todo], 2⟩ 1 50 none c1TodoItem 1 (by decide)
      c1Todo (by decide) (by decide)⟩

/-- Server expense row at version 5 for the claim C1 counterexample. -/
def c1Expense : Expense :=
  { id := 1, userId := 1, amount := 100, kind := "expense", categoryId := none
    description := "", date := 0, paymentMethod := none, isDeleted := false
    deletedAt := none, lastSyncedAt := some 5, clientId := some "e1", version := 5
    updatedAt := 5 }

/-- A stale client mutation for expense 1 (written against an old revision the
client never refreshed). -/
def c1ExpenseItem : ExpenseSyncItem :=
  { id := some 1, amount := 99, kind := "expense", categoryId := none
    description := "", date := 0, paymentMethod := none, clientId := some "e1" }

/-- Claim C1 as stated is false: the expenses sync (`src/routes/expenses.js`)
applies every update unconditionally — there is no believed-revision
comparison and no conflict list in its response.  With the server at
version 5, a stale client mutation is applied: the amount is overwritten and
the version bumped to 6 instead of being rejected with the current server
state. -/
theorem claim_C1_counterexample :
    ((expensesSync ⟨[c1Expense], 2⟩ 1 50 none [c1ExpenseItem]).state.rows.map
        fun r => (r.amount, r.version)) = [(99, 6)]
  ∧ (expensesSync ⟨[c1Expense], 2⟩ 1 50 none [c1ExpenseItem]).syncedExpenses.length = 1 := by
  constructor
  · rw [expensesSync_state]
    decide
  · rw [expensesSync_synced]
    decide

/-! ## Claim C3 -/

/-- A create mutation (no id) carrying client key "k1". -/
def c3Item : TodoSyncItem :=
  { id := none, title := "t", description := "", isCompleted := false
    categoryId := none, priority := "medium", tags := [], dueDate := none
    reminderTime := none, version := 0, clientId := some "k1" }

/-- Claim C3 fails on the code: the todos-sync insert branch never consults
`client_id`, so submitting the same create mutation twice yields two rows
with the same client key and distinct ids (1 and 2) instead of resolving the
second submission to the first id.  The sibling `POST /api/todos` handler in
the same repository does implement the `client_id` idempotency check, so the
sync-path omission contradicts the repository's own convention. -/
theorem claim_C3_duplicate_create :
    ((todosSync (todosSync ⟨[], 1⟩ 1 10 none [c3Item]).state 1 20 none [c3Item]).state.rows.map
        fun r => (r.id, r.clientId)) = [(1, some "k1"), (2, some "k1")] := by
  rw [todosSync_state, todosSync_state]
  decide

/-! ## Claim C4 -/

/-- Server event row at version 1 for the claim C4 failing input. -/
def c4Event : Event :=
  { id := 1, userId := 1, title := "e", description := "", eventDate := 100
    eventType := none, color := "#e74c3c", icon := "event", isRecurring := false
    recurrencePattern := none, notificationEnabled := true
    notificationTimes := [1440, 60, 0], imagePath := none, createdAt := 0
    isDeleted := false, deletedAt := none, lastSyncedAt := none, clientId := none
    version := 1, updatedAt := 10 }

/-- An accepted mutation for event 1 in the timestamp-based events sync
(equal `updated_at`, so the last-write-wins check accepts it). -/
def c4Item : EventSyncItem :=
  { id := some 1, title := "e2", description := "changed", eventDate := 200
    eventType := none, color := "#000000", icon := "event", isRecurring := false
    recurrencePattern := none, notificationEnabled := false
    notificationTimes := [1440, 60, 0], clientId := none, updatedAt := 10 }

/-- Claim C4 fails on the timestamp-based events sync
(`src/unnamed/part_004`): its accepted UPDATE sets the payload columns and
`updated_at` but never increments `version`, so an accepted mutation leaves
`version` at 1 instead of strictly increasing it.  (The mounted
`src/routes/events.js` sync, as well as the todos and expenses syncs, do bump
`version`.) -/
theorem claim_C4_version_not_bumped :
    ((eventsSyncTs ⟨[c4Event], 2⟩ 1 50 none [c4Item]).state.rows.map
        fun r => (r.version, r.title)) = [(1, "e2")]
  ∧ (eventsSyncTs ⟨[c4Event], 2⟩ 1 50 none [c4Item]).syncedEvents.length = 1 := by
  constructor
  · rw [eventsSyncTs_state]
    decide
  · rw [eventsSyncTs_synced]
    decide

/-! ## Claim C9 -/

/-- Claim C9 (amended): `serverChanges` is the pre-transaction snapshot of
the owner's rows whose change column strictly exceeds the watermark (a null
watermark falls back to the epoch; a row whose `last_synced_at` is NULL is
never included, since in SQL `NULL > x` does not hold) — with no exclusion of
the rows targeted by the same call's mutations. -/
theorem claim_C9_amended_serverChanges
    (s : ExpensesState) (ts : TodosState) (u : Nat) (now : Int) (w : Option Int)
    (items : List ExpenseSyncItem) (r : Expense) (t : Todo) :
    (r ∈ (expensesSync s u now w items).serverChanges ↔
      r ∈ s.rows ∧ r.userId = u ∧ sqlNewerThan r.lastSyncedAt (w.getD epoch) = true)
  ∧ (t ∈ todosSyncPull ts u w ↔
      t ∈ ts.rows ∧ t.userId = u ∧ w.getD epoch < t.updatedAt) := by
  constructor
  · rw [expensesSync_serverChanges, List.mem_mergeSort, List.mem_filter]
    simp [Bool.and_eq_true]
  · unfold todosSyncPull
    rw [List.mem_filter]
    simp [Bool.and_eq_true]

/-- Pre-existing server expense changed after the watermark. -/
def c9Row : Expense :=
  { id := 1, userId := 1, amount := 100, kind := "expense", categoryId := none
    description := "", date := 0, paymentMethod := none, isDeleted := false
    deletedAt := none, lastSyncedAt := some 5, clientId := none, version := 1
    updatedAt := 5 }

/-- A client mutation of the same call targeting that same record. -/
def c9Item : ExpenseSyncItem :=
  { id := some 1, amount := 200, kind := "expense", categoryId := none
    description := "", date := 0, paymentMethod := none, clientId := none }

/-- Claim C9 as stated is false: the code never excludes the records the
call's own mutations account for.  With watermark 3 and a mutation updating
record 1 (which is accepted: one synced row), the pre-mutation state of
record 1 is still returned in `serverChanges`, while the claim's set —
modelled by `claimServerChangesExpenses` — is empty. -/
theorem claim_C9_counterexample :
    c9Row ∈ (expensesSync ⟨[c9Row], 2⟩ 1 50 (some 3) [c9Item]).serverChanges
  ∧ c9Item.id = some c9Row.id
  ∧ (expensesSync ⟨[c9Row], 2⟩ 1 50 (some 3) [c9Item]).syncedExpenses.length = 1
  ∧ claimServerChangesExpenses ⟨[c9Row], 2⟩ 1 (some 3) [c9Item] = [] := by
  refine ⟨?_, by decide, ?_, by decide⟩
  · rw [expensesSync_serverChanges, List.mem_mergeSort]
    decide
  · rw [expensesSync_synced]
    decide

theorem claim_C9_witness :
    (c9Row ∈ (expensesSync ⟨[c9Row], 2⟩ 1 50 (some 3) []).serverChanges ↔
        c9Row ∈ (⟨[c9Row], 2⟩ : ExpensesState).rows ∧ c9Row.userId = 1 ∧
          sqlNewerThan c9Row.lastSyncedAt ((some (3 : Int)).getD epoch) = true) ∧
      (c9Row ∈ (⟨[c9Row], 2⟩ : ExpensesState).rows ∧ c9Row.userId = 1 ∧
        sqlNewerThan c9Row.lastSyncedAt ((some (3 : Int)).getD epoch) = true) :=
  ⟨(claim_C9_amended_serverChanges ⟨[c9Row], 2⟩ ⟨[], 1⟩ 1 50 (some 3) [] c9Row
      ⟨0, 0, "", "", false, none, "", [], none, none, false, none, none, none, 0, 0⟩).1,
    by refine ⟨by decide, by decide, by decide⟩⟩

/-! ## Claim C8 -/

theorem expensesSyncRun_none (u : Nat) (now : Int) (l : List ExpenseSyncItem) :
    ∀ acc, expensesSyncRun u now none l acc =
      .ok (l.foldl (expensesSyncStep u now) acc) := by
  induction l with
  | nil => intro acc; rfl
  | cons item rest ih =>
      intro acc
      rw [List.foldl_cons]
      simp only [expensesSyncRun]
      exact ih _

theorem expensesSyncRun_fail (u : Nat) (now : Int) (l : List ExpenseSyncItem) :
    ∀ k : Nat, k < l.length → ∀ acc, expensesSyncRun u now (some k) l acc = .error () := by
  induction l with
  | nil => intro k hk; simp at hk
  | cons item rest ih =>
      intro k hk acc
      cases k with
      | zero => rfl
      | succ n =>
          simp only [expensesSyncRun]
          exact ih n (by simpa using hk) _

theorem expensesSyncRun_ge (u : Nat) (now : Int) (l : List ExpenseSyncItem) :
    ∀ k : Nat, l.length ≤ k → ∀ acc, expensesSyncRun u now (some k) l acc =
      .ok (l.foldl (expensesSyncStep u now) acc) := by
  induction l with
  | nil => intro k _ acc; simp only [expensesSyncRun]; rfl
  | cons item rest ih =>
      intro k hk acc
      cases k with
      | zero => simp at hk
      | succ n =>
          rw [List.foldl_cons]
          simp only [expensesSyncRun]
          exact ih n (by simpa using hk) _

theorem todosSyncRun_none (u : Nat) (now : Int) (l : List TodoSyncItem) :
    ∀ acc, todosSyncRun u now none l acc = .ok (l.foldl (todosSyncStep u now) acc) := by
  induction l with
  | nil => intro acc; rfl
  | cons item rest ih =>
      intro acc
      rw [List.foldl_cons]
      simp only [todosSyncRun]
      exact ih _

theorem todosSyncRun_fail (u : Nat) (now : Int) (l : List TodoSyncItem) :
    ∀ k : Nat, k < l.length → ∀ acc, todosSyncRun u now (some k) l acc = .error () := by
  induction l with
  | nil => intro k hk; simp at hk
  | cons item rest ih =>
      intro k hk acc
      cases k with
      | zero => rfl
      | succ n =>
          simp only [todosSyncRun]
          exact ih n (by simpa using hk) _

/-- Claim C8: each sync handler is atomic.  If the statement of any mutation
fails, the handler rolls back — the visible table is exactly the
pre-transaction one, with no partially applied prefix — and the client
receives the 500 (retryable) response; if nothing fails, it commits exactly
the state in which every mutation has been applied.  For every fault point
the visible table is all-or-nothing: the original state or the fully synced
one. -/
theorem claim_C8_sync_atomic
    (es : ExpensesState) (ts : TodosState) (u : Nat) (now : Int) (w : Option Int)
    (eitems : List ExpenseSyncItem) (titems : List TodoSyncItem) (k : Nat) :
    (k < eitems.length →
      expensesSyncTx es u now w eitems (some k) = .rolledBack 500
      ∧ TxOutcome.dbState es (expensesSyncTx es u now w eitems (some k)) = es)
  ∧ expensesSyncTx es u now w eitems none =
      .committed (expensesSync es u now w eitems).state (expensesSync es u now w eitems)
  ∧ (∀ f : Option Nat, TxOutcome.dbState es (expensesSyncTx es u now w eitems f) = es ∨
      TxOutcome.dbState es (expensesSyncTx es u now w eitems f) =
        (expensesSync es u now w eitems).state)
  ∧ (k < titems.length →
      todosSyncTx ts u now w titems (some k) = .rolledBack 500
      ∧ TxOutcome.dbState ts (todosSyncTx ts u now w titems (some k)) = ts)
  ∧ todosSyncTx ts u now w titems none =
      .committed (todosSync ts u now w titems).state (todosSync ts u now w titems) := by
  have hecommit : expensesSyncTx es u now w eitems none =
      .committed (expensesSync es u now w eitems).state (expensesSync es u now w eitems) := by
    unfold expensesSyncTx
    rw [expensesSyncRun_none]
    rfl
  have htcommit : todosSyncTx ts u now w titems none =
      .committed (todosSync ts u now w titems).state (todosSync ts u now w titems) := by
    unfold todosSyncTx
    rw [todosSyncRun_none]
    rfl
  refine ⟨?_, hecommit, ?_, ?_, htcommit⟩
  · intro hk
    have h : expensesSyncTx es u now w eitems (some k) = .rolledBack 500 := by
      unfold expensesSyncTx
      rw [expensesSyncRun_fail u now eitems k hk]
    exact ⟨h, by rw [h]; rfl⟩
  · intro f
    cases f with
    | none =>
        right
        rw [hecommit]
        rfl
    | some m =>
        by_cases hm : m < eitems.length
        · left
          have h : expensesSyncTx es u now w eitems (some m) = .rolledBack 500 := by
            unfold expensesSyncTx
            rw [expensesSyncRun_fail u now eitems m hm]
          rw [h]
          rfl
        · right
          have h : expensesSyncTx es u now w eitems (some m) =
              .committed (expensesSync es u now w eitems).state
                (expensesSync es u now w eitems) := by
            unfold expensesSyncTx
            rw [expensesSyncRun_ge u now eitems m (by omega)]
            rfl
          rw [h]
          rfl
  · intro hk
    have h : todosSyncTx ts u now w titems (some k) = .rolledBack 500 := by
      unfold todosSyncTx
      rw [todosSyncRun_fail u now titems k hk]
    exact ⟨h, by rw [h]; rfl⟩

/-- Payload for the claim C8 witness. -/
def c8Item : ExpenseSyncItem :=
  { id := none, amount := 10, kind := "expense", categoryId := none
    description := "", date := 0, paymentMethod := none, clientId := some "c8" }

theorem claim_C8_witness :
    0 < [c8Item].length ∧
      (expensesSyncTx ⟨[], 1⟩ 1 50 none [c8Item] (some 0) = .rolledBack 500
        ∧ TxOutcome.dbState ⟨[], 1⟩ (expensesSyncTx ⟨[], 1⟩ 1 50 none [c8Item] (some 0)) =
            ⟨[], 1⟩) :=
  ⟨by decide,
    (claim_C8_sync_atomic ⟨[], 1⟩ ⟨[], 1⟩ 1 50 none [c8Item] [] 0).1 (by decide)⟩

/-! ## Claim C5 -/

theorem todoUpdatedRow_id (now : Int) (item : TodoSyncItem) (r : Todo) :
    (todoUpdatedRow now item r).id = r.id := rfl

theorem todoUpdatedRow_isDeleted (now : Int) (item : TodoSyncItem) (r : Todo) :
    (todoUpdatedRow now item r).isDeleted = r.isDeleted := rfl

theorem expenseUpdatedRow_id (now : Int) (item : ExpenseSyncItem) (r : Expense) :
    (expenseUpdatedRow now item r).id = r.id := rfl

theorem expenseUpdatedRow_isDeleted (now : Int) (item : ExpenseSyncItem) (r : Expense) :
    (expenseUpdatedRow now item r).isDeleted = r.isDeleted := rfl

theorem eventUpdatedRow_id (now : Int) (item : EventSyncItem) (r : Event) :
    (eventUpdatedRow now item r).id = r.id := rfl

theorem eventUpdatedRow_isDeleted (now : Int) (item : EventSyncItem) (r : Event) :
    (eventUpdatedRow now item r).isDeleted = r.isDeleted := rfl

theorem eventTsUpdatedRow_id (now : Int) (item : EventSyncItem) (r : Event) :
    (eventTsUpdatedRow now item r).id = r.id := rfl

theorem eventTsUpdatedRow_isDeleted (now : Int) (item : EventSyncItem) (r : Event) :
    (eventTsUpdatedRow now item r).isDeleted = r.isDeleted := rfl

/-- Invariant carried through the todos-sync mutation loop for one tombstoned
id: the store keeps a row with that id, every such row is tombstoned, SERIAL
freshness holds, and every pushed response row with that id is tombstoned. -/
def TodoTombInv (rid : Nat) (acc : TodosSyncAcc) : Prop :=
  (∃ r ∈ acc.state.rows, r.id = rid) ∧
  (∀ r ∈ acc.state.rows, r.id = rid → r.isDeleted = true) ∧
  (∀ r ∈ acc.state.rows, r.id < acc.state.nextId) ∧
  (∀ r ∈ acc.syncedTodos, r.id = rid → r.isDeleted = true)

theorem todosSyncStep_tombInv (u : Nat) (now : Int) (rid : Nat)
    (acc : TodosSyncAcc) (item : TodoSyncItem) (h : TodoTombInv rid acc) :
    TodoTombInv rid (todosSyncStep u now acc item) := by
  obtain ⟨⟨rex, hrex, hrexid⟩, hdel, hbound, hsync⟩ := h
  have hfresh : rid < acc.state.nextId := hrexid ▸ hbound rex hrex
  unfold todosSyncStep
  cases hi : item.id with
  | none =>
      dsimp only
      refine ⟨⟨rex, List.mem_append_left _ hrex, hrexid⟩, ?_, ?_, ?_⟩
      · intro r hr hid
        rcases List.mem_append.mp hr with hr | hr
        · exact hdel r hr hid
        · rw [List.mem_singleton] at hr
          subst hr
          exact absurd hid (by show acc.state.nextId ≠ rid; omega)
      · intro r hr
        show r.id < acc.state.nextId + 1
        rcases List.mem_append.mp hr with hr | hr
        · have := hbound r hr; omega
        · rw [List.mem_singleton] at hr
          subst hr
          show acc.state.nextId < acc.state.nextId + 1
          omega
      · intro r hr hid
        rcases List.mem_append.mp hr with hr | hr
        · exact hsync r hr hid
        · rw [List.mem_singleton] at hr
          subst hr
          exact absurd hid (by show acc.state.nextId ≠ rid; omega)
  | some i =>
      dsimp only
      cases hf : acc.state.rows.find? (fun r => r.id == i && r.userId == u) with
      | none =>
          exact ⟨⟨rex, hrex, hrexid⟩, hdel, hbound, hsync⟩
      | some existing =>
          dsimp only
          by_cases hv : existing.version > item.version
          · rw [if_pos hv]
            exact ⟨⟨rex, hrex, hrexid⟩, hdel, hbound, hsync⟩
          · rw [if_neg hv]
            have hfid : ∀ r : Todo,
                (if r.id = i ∧ r.userId = u then todoUpdatedRow now item r else r).id =
                  r.id := by
              intro r
              by_cases hc : r.id = i ∧ r.userId = u <;> simp [hc, todoUpdatedRow_id]
            have hfdel : ∀ r : Todo,
                (if r.id = i ∧ r.userId = u then todoUpdatedRow now item r else r).isDeleted =
                  r.isDeleted := by
              intro r
              by_cases hc : r.id = i ∧ r.userId = u <;>
                simp [hc, todoUpdatedRow_isDeleted]
            refine ⟨?_, ?_, ?_, ?_⟩
            · refine ⟨_, List.mem_map_of_mem _ hrex, ?_⟩
              rw [hfid]
              exact hrexid
            · intro r hr hid
              rw [List.mem_map] at hr
              obtain ⟨r0, hr0, rfl⟩ := hr
              rw [hfid] at hid
              rw [hfdel]
              exact hdel r0 hr0 hid
            · intro r hr
              rw [List.mem_map] at hr
              obtain ⟨r0, hr0, rfl⟩ := hr
              show _ < acc.state.nextId
              rw [hfid]
              exact hbound r0 hr0
            · intro r hr hid
              rcases List.mem_append.mp hr with hr | hr
              · exact hsync r hr hid
              · rw [List.mem_singleton] at hr
                subst hr
                rw [todoUpdatedRow_id] at hid
                rw [todoUpdatedRow_isDeleted]
                exact hdel existing (List.mem_of_find?_eq_some hf) hid

/-- Tombstone invariant for the expenses-sync loop. -/
def ExpenseTombInv (rid : Nat) (acc : ExpensesSyncAcc) : Prop :=
  (∃ r ∈ acc.state.rows, r.id = rid) ∧
  (∀ r ∈ acc.state.rows, r.id = rid → r.isDeleted = true) ∧
  (∀ r ∈ acc.state.rows, r.id < acc.state.nextId) ∧
  (∀ r ∈ acc.syncedExpenses, r.id = rid → r.isDeleted = true)

theorem expensesSyncStep_tombInv (u : Nat) (now : Int) (rid : Nat)
    (acc : ExpensesSyncAcc) (item : ExpenseSyncItem) (h : ExpenseTombInv rid acc) :
    ExpenseTombInv rid (expensesSyncStep u now acc item) := by
  obtain ⟨⟨rex, hrex, hrexid⟩, hdel, hbound, hsync⟩ := h
  have hfresh : rid < acc.state.nextId := hrexid ▸ hbound rex hrex
  unfold expensesSyncStep
  cases hi : item.id with
  | none =>
      dsimp only
      refine ⟨⟨rex, List.mem_append_left _ hrex, hrexid⟩, ?_, ?_, ?_⟩
      · intro r hr hid
        rcases List.mem_append.mp hr with hr | hr
        · exact hdel r hr hid
        · rw [List.mem_singleton] at hr
          subst hr
          exact absurd hid (by show acc.state.nextId ≠ rid; omega)
      · intro r hr
        show r.id < acc.state.nextId + 1
        rcases List.mem_append.mp hr with hr | hr
        · have := hbound r hr; omega
        · rw [List.mem_singleton] at hr
          subst hr
          show acc.state.nextId < acc.state.nextId + 1
          omega
      · intro r hr hid
        rcases List.mem_append.mp hr with hr | hr
        · exact hsync r hr hid
        · rw [List.mem_singleton] at hr
          subst hr
          exact absurd hid (by show acc.state.nextId ≠ rid; omega)
  | some i =>
      dsimp only
      cases hf : acc.state.rows.find? (fun r => r.id == i && r.userId == u) with
      | none =>
          exact ⟨⟨rex, hrex, hrexid⟩, hdel, hbound, hsync⟩
      | some existing =>
          dsimp only
          have hfid : ∀ r : Expense,
              (if r.id = i ∧ r.userId = u then expenseUpdatedRow now item r else r).id =
                r.id := by
            intro r
            by_cases hc : r.id = i ∧ r.userId = u <;> simp [hc, expenseUpdatedRow_id]
          have hfdel : ∀ r : Expense,
              (if r.id = i ∧ r.userId = u then expenseUpdatedRow now item r else r).isDeleted =
                r.isDeleted := by
            intro r
            by_cases hc : r.id = i ∧ r.userId = u <;>
              simp [hc, expenseUpdatedRow_isDeleted]
          refine ⟨?_, ?_, ?_, ?_⟩
          · refine ⟨_, List.mem_map_of_mem _ hrex, ?_⟩
            rw [hfid]
            exact hrexid
          · intro r hr hid
            rw [List.mem_map] at hr
            obtain ⟨r0, hr0, rfl⟩ := hr
            rw [hfid] at hid
            rw [hfdel]
            exact hdel r0 hr0 hid
          · intro r hr
            rw [List.mem_map] at hr
            obtain ⟨r0, hr0, rfl⟩ := hr
            show _ < acc.state.nextId
            rw [hfid]
            exact hbound r0 hr0
          · intro r hr hid
            rcases List.mem_append.mp hr with hr | hr
            · exact hsync r hr hid
            · rw [List.mem_singleton] at hr
              subst hr
              rw [expenseUpdatedRow_id] at hid
              rw [expenseUpdatedRow_isDeleted]
              exact hdel existing (List.mem_of_find?_eq_some hf) hid

/-- Tombstone invariant for the events-sync loop of src/routes/events.js. -/
def EventTombInv (rid : Nat) (acc : EventsSyncAcc) : Prop :=
  (∃ r ∈ acc.state.rows, r.id = rid) ∧
  (∀ r ∈ acc.state.rows, r.id = rid → r.isDeleted = true) ∧
  (∀ r ∈ acc.state.rows, r.id < acc.state.nextId) ∧
  (∀ r ∈ acc.syncedEvents, r.id = rid → r.isDeleted = true)

theorem eventsSyncStep_tombInv (u : Nat) (now : Int) (rid : Nat)
    (acc : EventsSyncAcc) (item : EventSyncItem) (h : EventTombInv rid acc) :
    EventTombInv rid (eventsSyncStep u now acc item) := by
  obtain ⟨⟨rex, hrex, hrexid⟩, hdel, hbound, hsync⟩ := h
  have hfresh : rid < acc.state.nextId := hrexid ▸ hbound rex hrex
  unfold eventsSyncStep
  cases hi : item.id with
  | none =>
      dsimp only
      refine ⟨⟨rex, List.mem_append_left _ hrex, hrexid⟩, ?_, ?_, ?_⟩
      · intro r hr hid
        rcases List.mem_append.mp hr with hr | hr
        · exact hdel r hr hid
        · rw [List.mem_singleton] at hr
          subst hr
          exact absurd hid (by show acc.state.nextId ≠ rid; omega)
      · intro r hr
        show r.id < acc.state.nextId + 1
        rcases List.mem_append.mp hr with hr | hr
        · have := hbound r hr; omega
        · rw [List.mem_singleton] at hr
          subst hr
          show acc.state.nextId < acc.state.nextId + 1
          omega
      · intro r hr hid
        rcases List.mem_append.mp hr with hr | hr
        · exact hsync r hr hid
        · rw [List.mem_singleton] at hr
          subst hr
          exact absurd hid (by show acc.state.nextId ≠ rid; omega)
  | some i =>
      dsimp only
      cases hf : acc.state.rows.find? (fun r => r.id == i && r.userId == u) with
      | none =>
          exact ⟨⟨rex, hrex, hrexid⟩, hdel, hbound, hsync⟩
      | some existing =>
          dsimp only
          have hfid : ∀ r : Event,
              (if r.id = i ∧ r.userId = u then eventUpdatedRow now item r else r).id =
                r.id := by
            intro r
            by_cases hc : r.id = i ∧ r.userId = u <;> simp [hc, eventUpdatedRow_id]
          have hfdel : ∀ r : Event,
              (if r.id = i ∧ r.userId = u then eventUpdatedRow now item r else r).isDeleted =
                r.isDeleted := by
            intro r
            by_cases hc : r.id = i ∧ r.userId = u <;>
              simp [hc, eventUpdatedRow_isDeleted]
          refine ⟨?_, ?_, ?_, ?_⟩
          · refine ⟨_, List.mem_map_of_mem _ hrex, ?_⟩
            rw [hfid]
            exact hrexid
          · intro r hr hid
            rw [List.mem_map] at hr
            obtain ⟨r0, hr0, rfl⟩ := hr
            rw [hfid] at hid
            rw [hfdel]
            exact hdel r0 hr0 hid
          · intro r hr
            rw [List.mem_map] at hr
            obtain ⟨r0, hr0, rfl⟩ := hr
            show _ < acc.state.nextId
            rw [hfid]
            exact hbound r0 hr0
          · intro r hr hid
            rcases List.mem_append.mp hr with hr | hr
            · exact hsync r hr hid
            · rw [List.mem_singleton] at hr
              subst hr
              rw [eventUpdatedRow_id] at hid
              rw [eventUpdatedRow_isDeleted]
              exact hdel existing (List.mem_of_find?_eq_some hf) hid

/-- Tombstone invariant for the timestamp-based events-sync loop. -/
def EventTsTombInv (rid : Nat) (acc : EventsTsSyncAcc) : Prop :=
  (∃ r ∈ acc.state.rows, r.id = rid) ∧
  (∀ r ∈ acc.state.rows, r.id = rid → r.isDeleted = true) ∧
  (∀ r ∈ acc.state.rows, r.id < acc.state.nextId) ∧
  (∀ r ∈ acc.syncedEvents, r.id = rid → r.isDeleted = true)

theorem eventsTsSyncStep_tombInv (u : Nat) (now : Int) (rid : Nat)
    (acc : EventsTsSyncAcc) (item : EventSyncItem) (h : EventTsTombInv rid acc) :
    EventTsTombInv rid (eventsTsSyncStep u now acc item) := by
  obtain ⟨⟨rex, hrex, hrexid⟩, hdel, hbound, hsync⟩ := h
  have hfresh : rid < acc.state.nextId := hrexid ▸ hbound rex hrex
  unfold eventsTsSyncStep
  cases hi : item.id with
  | none =>
      dsimp only
      refine ⟨⟨rex, List.mem_append_left _ hrex, hrexid⟩, ?_, ?_, ?_⟩
      · intro r hr hid
        rcases List.mem_append.mp hr with hr | hr
        · exact hdel r hr hid
        · rw [List.mem_singleton] at hr
          subst hr
          exact absurd hid (by show acc.state.nextId ≠ rid; omega)
      · intro r hr
        show r.id < acc.state.nextId + 1
        rcases List.mem_append.mp hr with hr | hr
        · have := hbound r hr; omega
        · rw [List.mem_singleton] at hr
          subst hr
          show acc.state.nextId < acc.state.nextId + 1
          omega
      · intro r hr hid
        rcases List.mem_append.mp hr with hr | hr
        · exact hsync r hr hid
        · rw [List.mem_singleton] at hr
          subst hr
          exact absurd hid (by show acc.state.nextId ≠ rid; omega)
  | some i =>
      dsimp only
      cases hf : acc.state.rows.find? (fun r => r.id == i && r.userId == u) with
      | none =>
          exact ⟨⟨rex, hrex, hrexid⟩, hdel, hbound, hsync⟩
      | some existing =>
          dsimp only
          by_cases hv : existing.updatedAt > item.updatedAt
          · rw [if_pos hv]
            exact ⟨⟨rex, hrex, hrexid⟩, hdel, hbound, hsync⟩
          · rw [if_neg hv]
            have hfid : ∀ r : Event,
                (if r.id = i ∧ r.userId = u then eventTsUpdatedRow now item r else r).id =
                  r.id := by
              intro r
              by_cases hc : r.id = i ∧ r.userId = u <;> simp [hc, eventTsUpdatedRow_id]
            have hfdel : ∀ r : Event,
                (if r.id = i ∧ r.userId = u then
                    eventTsUpdatedRow now item r else r).isDeleted = r.isDeleted := by
              intro r
              by_cases hc : r.id = i ∧ r.userId = u <;>
                simp [hc, eventTsUpdatedRow_isDeleted]
            refine ⟨?_, ?_, ?_, ?_⟩
            · refine ⟨_, List.mem_map_of_mem _ hrex, ?_⟩
              rw [hfid]
              exact hrexid
            · intro r hr hid
              rw [List.mem_map] at hr
              obtain ⟨r0, hr0, rfl⟩ := hr
              rw [hfid] at hid
              rw [hfdel]
              exact hdel r0 hr0 hid
            · intro r hr
              rw [List.mem_map] at hr
              obtain ⟨r0, hr0, rfl⟩ := hr
              show _ < acc.state.nextId
              rw [hfid]
              exact hbound r0 hr0
            · intro r hr hid
              rcases List.mem_append.mp hr with hr | hr
              · exact hsync r hr hid
              · rw [List.mem_singleton] at hr
                subst hr
                rw [eventTsUpdatedRow_id] at hid
                rw [eventTsUpdatedRow_isDeleted]
                exact hdel existing (List.mem_of_find?_eq_some hf) hid

/-- Claim C5: tombstones are permanent under every embedded sync operation.
Once a row has `is_deleted = true`, after any sync call every stored row with
that id is still tombstoned (no update flips the flag back: none of the
UPDATE SET clauses touches `is_deleted`, and inserts mint fresh SERIAL ids),
and every row the call returns (`syncedX` or `serverChanges`) with that id is
tombstoned as well. -/
theorem claim_C5_tombstones_permanent
    (u : Nat) (now : Int) (w : Option Int)
    (ts : TodosState) (titems : List TodoSyncItem) (t : Todo)
    (htm : t ∈ ts.rows) (htd : t.isDeleted = true)
    (htn : (ts.rows.map Todo.id).Nodup) (htb : ∀ r ∈ ts.rows, r.id < ts.nextId)
    (es : ExpensesState) (eitems : List ExpenseSyncItem) (x : Expense)
    (hxm : x ∈ es.rows) (hxd : x.isDeleted = true)
    (hxn : (es.rows.map Expense.id).Nodup) (hxb : ∀ r ∈ es.rows, r.id < es.nextId)
    (vs : EventsState) (vitems : List EventSyncItem) (v : Event)
    (hvm : v ∈ vs.rows) (hvd : v.isDeleted = true)
    (hvn : (vs.rows.map Event.id).Nodup) (hvb : ∀ r ∈ vs.rows, r.id < vs.nextId) :
    ((∀ r ∈ (todosSync ts u now w titems).state.rows, r.id = t.id → r.isDeleted = true)
      ∧ (∃ r ∈ (todosSync ts u now w titems).state.rows, r.id = t.id)
      ∧ (∀ r ∈ (todosSync ts u now w titems).syncedTodos, r.id = t.id → r.isDeleted = true)
      ∧ (∀ r ∈ (todosSync ts u now w titems).serverChanges, r.id = t.id → r.isDeleted = true))
  ∧ ((∀ r ∈ (expensesSync es u now w eitems).state.rows, r.id = x.id → r.isDeleted = true)
      ∧ (∃ r ∈ (expensesSync es u now w eitems).state.rows, r.id = x.id)
      ∧ (∀ r ∈ (expensesSync es u now w eitems).syncedExpenses,
          r.id = x.id → r.isDeleted = true)
      ∧ (∀ r ∈ (expensesSync es u now w eitems).serverChanges,
          r.id = x.id → r.isDeleted = true))
  ∧ ((∀ r ∈ (eventsSync vs u now w vitems).state.rows, r.id = v.id → r.isDeleted = true)
      ∧ (∃ r ∈ (eventsSync vs u now w vitems).state.rows, r.id = v.id)
      ∧ (∀ r ∈ (eventsSync vs u now w vitems).syncedEvents,
          r.id = v.id → r.isDeleted = true)
      ∧ (∀ r ∈ (eventsSync vs u now w vitems).serverChanges,
          r.id = v.id → r.isDeleted = true))
  ∧ ((∀ r ∈ (eventsSyncTs vs u now w vitems).state.rows, r.id = v.id → r.isDeleted = true)
      ∧ (∃ r ∈ (eventsSyncTs vs u now w vitems).state.rows, r.id = v.id)
      ∧ (∀ r ∈ (eventsSyncTs vs u now w vitems).syncedEvents,
          r.id = v.id → r.isDeleted = true)
      ∧ (∀ r ∈ (eventsSyncTs vs u now w vitems).serverChanges,
          r.id = v.id → r.isDeleted = true)) := by
  have htall : ∀ r ∈ ts.rows, r.id = t.id → r.isDeleted = true := by
    intro r hr hid
    rw [todo_eq_of_mem_nodup_id htn hr htm hid]
    exact htd
  have hxall : ∀ r ∈ es.rows, r.id = x.id → r.isDeleted = true := by
    intro r hr hid
    rw [List.inj_on_of_nodup_map hxn hr hxm hid]
    exact hxd
  have hvall : ∀ r ∈ vs.rows, r.id = v.id → r.isDeleted = true := by
    intro r hr hid
    rw [eq_of_mem_nodup_id hvn hr hvm hid]
    exact hvd
  have htinv : TodoTombInv t.id (titems.foldl (todosSyncStep u now) ⟨ts, [], []⟩) :=
    foldl_invariant _ _ (fun b a hb => todosSyncStep_tombInv u now t.id b a hb) titems _
      ⟨⟨t, htm, rfl⟩, htall, htb, by intro r hr; cases hr⟩
  have hxinv : ExpenseTombInv x.id (eitems.foldl (expensesSyncStep u now) ⟨es, []⟩) :=
    foldl_invariant _ _ (fun b a hb => expensesSyncStep_tombInv u now x.id b a hb) eitems _
      ⟨⟨x, hxm, rfl⟩, hxall, hxb, by intro r hr; cases hr⟩
  have hvinv : EventTombInv v.id (vitems.foldl (eventsSyncStep u now) ⟨vs, []⟩) :=
    foldl_invariant _ _ (fun b a hb => eventsSyncStep_tombInv u now v.id b a hb) vitems _
      ⟨⟨v, hvm, rfl⟩, hvall, hvb, by intro r hr; cases hr⟩
  have hvtinv : EventTsTombInv v.id (vitems.foldl (eventsTsSyncStep u now) ⟨vs, [], []⟩) :=
    foldl_invariant _ _ (fun b a hb => eventsTsSyncStep_tombInv u now v.id b a hb) vitems _
      ⟨⟨v, hvm, rfl⟩, hvall, hvb, by intro r hr; cases hr⟩
  refine ⟨⟨?_, ?_, ?_, ?_⟩, ⟨?_, ?_, ?_, ?_⟩, ⟨?_, ?_, ?_, ?_⟩, ⟨?_, ?_, ?_, ?_⟩⟩
  · rw [todosSync_state]
    exact htinv.2.1
  · rw [todosSync_state]
    exact htinv.1
  · rw [todosSync_synced]
    exact htinv.2.2.2
  · intro r hr hid
    rw [todosSync_serverChanges, List.mem_mergeSort, List.mem_filter] at hr
    exact htall r hr.1 hid
  · rw [expensesSync_state]
    exact hxinv.2.1
  · rw [expensesSync_state]
    exact hxinv.1
  · rw [expensesSync_synced]
    exact hxinv.2.2.2
  · intro r hr hid
    rw [expensesSync_serverChanges, List.mem_mergeSort, List.mem_filter] at hr
    exact hxall r hr.1 hid
  · rw [eventsSync_state]
    exact hvinv.2.1
  · rw [eventsSync_state]
    exact hvinv.1
  · rw [eventsSync_synced]
    exact hvinv.2.2.2
  · intro r hr hid
    rw [eventsSync_serverChanges, List.mem_mergeSort, List.mem_filter] at hr
    exact hvall r hr.1 hid
  · rw [eventsSyncTs_state]
    exact hvtinv.2.1
  · rw [eventsSyncTs_state]
    exact hvtinv.1
  · rw [eventsSyncTs_synced]
    exact hvtinv.2.2.2
  · intro r hr hid
    rw [eventsSyncTs_serverChanges, List.mem_mergeSort, List.mem_filter] at hr
    exact hvall r hr.1 hid

/-- Tombstoned todo row for the claim C5 witness. -/
def c5Todo : Todo :=
  { id := 1, userId := 1, title := "gone", description := "", isCompleted := false
    categoryId := none, priority := "medium", tags := [], dueDate := none
    reminderTime := none, isDeleted := true, deletedAt := some 4
    lastSyncedAt := some 4, clientId := some "d1", version := 2, updatedAt := 4 }

/-- A stale pre-delete payload resubmitted as an update for the tombstoned
todo. -/
def c5TodoItem : TodoSyncItem :=
  { id := some 1, title := "back", description := "", isCompleted := false
    categoryId := none, priority := "medium", tags := [], dueDate := none
    reminderTime := none, version := 9, clientId := some "d1" }

/-- Tombstoned expense row for the claim C5 witness. -/
def c5Expense : Expense :=
  { id := 1, userId := 1, amount := 100, kind := "expense", categoryId := none
    description := "", date := 0, paymentMethod := none, isDeleted := true
    deletedAt := some 4, lastSyncedAt := some 4, clientId := none, version := 2
    updatedAt := 4 }

/-- Tombstoned event row for the claim C5 witness. -/
def c5Event : Event :=
  { id := 1, userId := 1, title := "gone", description := "", eventDate := 100
    eventType := none, color := "#e74c3c", icon := "event", isRecurring := false
    recurrencePattern := none, notificationEnabled := true
    notificationTimes := [1440, 60, 0], imagePath := none, createdAt := 0
    isDeleted := true, deletedAt := some 4, lastSyncedAt := some 4, clientId := none
    version := 2, updatedAt := 4 }

/-- Stale pre-delete payload for the tombstoned expense. -/
def c5ExpenseItem : ExpenseSyncItem :=
  { id := some 1, amount := 50, kind := "expense", categoryId := none
    description := "resurrect", date := 0, paymentMethod := none, clientId := none }

/-- Stale pre-delete payload for the tombstoned event. -/
def c5EventItem : EventSyncItem :=
  { id := some 1, title := "back", description := "", eventDate := 100
    eventType := none, color := "#e74c3c", icon := "event", isRecurring := false
    recurrencePattern := none, notificationEnabled := true
    notificationTimes := [1440, 60, 0], clientId := none, updatedAt := 9 }

theorem claim_C5_witness :
    (c5Todo ∈ (⟨[c5Todo], 2⟩ : TodosState).rows ∧ c5Todo.isDeleted = true ∧
        c5Expense ∈ (⟨[c5Expense], 2⟩ : ExpensesState).rows ∧ c5Expense.isDeleted = true ∧
        c5Event ∈ (⟨[c5Event], 2⟩ : EventsState).rows ∧ c5Event.isDeleted = true) ∧
      ((∀ r ∈ (todosSync ⟨[c5Todo], 2⟩ 1 50 none [c5TodoItem]).state.rows,
          r.id = c5Todo.id → r.isDeleted = true)
        ∧ (∀ r ∈ (expensesSync ⟨[c5Expense], 2⟩ 1 50 none [c5ExpenseItem]).state.rows,
            r.id = c5Expense.id → r.isDeleted = true)
        ∧ (∀ r ∈ (eventsSync ⟨[c5Event], 2⟩ 1 50 none [c5EventItem]).state.rows,
            r.id = c5Event.id → r.isDeleted = true)
        ∧ (∀ r ∈ (eventsSyncTs ⟨[c5Event], 2⟩ 1 50 none [c5EventItem]).state.rows,
            r.id = c5Event.id → r.isDeleted = true)) :=
  have h := claim_C5_tombstones_permanent 1 50 none
    ⟨[c5Todo], 2⟩ [c5TodoItem] c5Todo (by decide) (by decide) (by decide) (by decide)
    ⟨[c5Expense], 2⟩ [c5ExpenseItem] c5Expense (by decide) (by decide) (by decide) (by decide)
    ⟨[c5Event], 2⟩ [c5EventItem] c5Event (by decide) (by decide) (by decide) (by decide)
  ⟨⟨by decide, by decide, by decide, by decide, by decide, by decide⟩,
    h.1.1, h.2.1.1, h.2.2.1.1, h.2.2.2.1⟩

end SyncEngine
